import Mathlib

/-!
# IAQ BLE-mesh gateway: threshold gate, payload codec, node tracker, measurement tick,
serial line

A shallow embedding of `app_sensor_iaq.c`, `mesh_vendor_model.c` and
`app_uart_gateway.c`.

* C `float` is IEEE 754 binary32.  A value is NaN, an infinity, or a finite
  number carried by its exact rational value; every arithmetic operation
  computes the exact rational result and rounds it to the binary32 grid
  (round to nearest, ties to even), one rounding per operation.  The two
  zeros are identified, which no operation of this program can observe.
* A conversion from `float` to a `w`-bit integer type takes the integer part
  (toward zero) and reduces it modulo `2 ^ w`.  ISO C defines the conversion
  only when the integer part fits the target type; statements meant to hold
  whatever a platform does outside that range carry the fit as a hypothesis.
* Module-level `static` variables become fields of explicit state records.
* Calls into the SDK (sensor driver, algorithm library, mesh access layer)
  are answered by an environment record holding the value each call returns;
  the calls themselves are recorded in an event trace.
-/

namespace F32Model

/-- The power `2 ^ k` for an integer exponent, as a rational. -/
def pow2 (k : ℤ) : ℚ :=
  if 0 ≤ k then ((2 ^ k.toNat : ℕ) : ℚ) else 1 / ((2 ^ (-k).toNat : ℕ) : ℚ)

/-- The bit length minus one, `⌊log₂ n⌋`, by repeated halving (at most `fuel` times). -/
def log2Fuel : ℕ → ℕ → ℕ
  | 0, _ => 0
  | fuel + 1, n => if 2 ≤ n then log2Fuel fuel (n / 2) + 1 else 0

/-- The exponent `⌊log₂ |q|⌋` of a nonzero rational. -/
def ilog2 (q : ℚ) : ℤ :=
  let n := q.num.natAbs
  let k : ℤ := (log2Fuel n n : ℤ) - (log2Fuel q.den q.den : ℤ)
  if pow2 k ≤ |q| then k else k - 1

/-- Nearest integer, ties to the even neighbour. -/
def roundHalfEven (q : ℚ) : ℤ :=
  let f := ⌊q⌋
  let r := q - f
  if r < 1 / 2 then f else if 1 / 2 < r then f + 1 else if f % 2 = 0 then f else f + 1

end F32Model

/-- An IEEE 754 binary32 value (the C type `float`). -/
inductive F32 where
  | nan : F32
  | inf (neg : Bool) : F32
  | fin (q : ℚ) : F32
  deriving DecidableEq

namespace F32

open F32Model

/-- Round an exact rational to binary32: 24 significant bits, exponents
`-126 .. 127` with gradual underflow, ties to even, overflow to infinity. -/
def round (q : ℚ) : F32 :=
  if q = 0 then fin 0
  else
    let e := max (ilog2 q) (-126)
    let quantum := pow2 (e - 23)
    let r := (roundHalfEven (|q| / quantum) : ℚ) * quantum
    if pow2 128 ≤ r then inf (decide (q < 0)) else fin (if q < 0 then -r else r)

/-- A finite value that lies on the binary32 grid. -/
def Representable (q : ℚ) : Prop := round q = fin q

instance (q : ℚ) : Decidable (Representable q) :=
  inferInstanceAs (Decidable (round q = fin q))

/-- The C conversion `(float) n` of an integer. -/
def ofInt (n : ℤ) : F32 := round n

/-- Unary minus. -/
def neg : F32 → F32
  | nan => nan
  | inf s => inf (!s)
  | fin q => fin (-q)

/-- The C function `fabsf`. -/
def fabsf : F32 → F32
  | nan => nan
  | inf _ => inf false
  | fin q => fin |q|

/-- Binary32 addition. -/
def add : F32 → F32 → F32
  | nan, _ => nan
  | _, nan => nan
  | inf a, inf b => if a = b then inf a else nan
  | inf a, fin _ => inf a
  | fin _, inf b => inf b
  | fin a, fin b => round (a + b)

/-- Binary32 subtraction. -/
def sub : F32 → F32 → F32
  | nan, _ => nan
  | _, nan => nan
  | inf a, inf b => if a = b then nan else inf a
  | inf a, fin _ => inf a
  | fin _, inf b => inf (!b)
  | fin a, fin b => round (a - b)

/-- Binary32 multiplication. -/
def mul : F32 → F32 → F32
  | nan, _ => nan
  | _, nan => nan
  | inf a, inf b => inf (a != b)
  | inf a, fin q => if q = 0 then nan else inf (a != decide (q < 0))
  | fin q, inf b => if q = 0 then nan else inf (decide (q < 0) != b)
  | fin a, fin b => round (a * b)

/-- Binary32 division (a zero divisor is taken as `+0`). -/
def div : F32 → F32 → F32
  | nan, _ => nan
  | _, nan => nan
  | inf _, inf _ => nan
  | inf a, fin q => inf (a != decide (q < 0))
  | fin _, inf _ => fin 0
  | fin a, fin b =>
    if b = 0 then (if a = 0 then nan else inf (decide (a < 0))) else round (a / b)

/-- The C comparison `x < y` (false when either side is NaN). -/
def lt : F32 → F32 → Bool
  | nan, _ => false
  | _, nan => false
  | inf a, inf b => a && !b
  | inf a, fin _ => a
  | fin _, inf b => !b
  | fin a, fin b => decide (a < b)

/-- The C comparison `x <= y` (false when either side is NaN). -/
def le : F32 → F32 → Bool
  | nan, _ => false
  | _, nan => false
  | inf a, inf b => a || !b
  | inf a, fin _ => a
  | fin _, inf b => !b
  | fin a, fin b => decide (a ≤ b)

/-- The C comparison `x > y`. -/
def gt (x y : F32) : Bool := lt y x

/-- The C comparison `x >= y`. -/
def ge (x y : F32) : Bool := le y x

/-- The C comparison `x != y` (true when either side is NaN). -/
def ne : F32 → F32 → Bool
  | nan, _ => true
  | _, nan => true
  | inf a, inf b => a != b
  | inf _, fin _ => true
  | fin _, inf _ => true
  | fin a, fin b => decide (a ≠ b)

/-- The integer part, rounding toward zero (`0` for NaN and infinities). -/
def trunc : F32 → ℤ
  | fin q => if 0 ≤ q then ⌊q⌋ else -⌊-q⌋
  | _ => 0

/-- The C conversion `(uint8_t) x`: integer part, reduced modulo `2 ^ 8`. -/
def toUInt8 (x : F32) : ℕ := (trunc x % 256).toNat

/-- The C conversion `(uint16_t) x`: integer part, reduced modulo `2 ^ 16`. -/
def toUInt16 (x : F32) : ℕ := (trunc x % 65536).toNat

/-- The C conversion `(int16_t) x`: integer part, reduced modulo `2 ^ 16` into
the two's-complement range `-32768 .. 32767`. -/
def toInt16 (x : F32) : ℤ :=
  let m := trunc x % 65536
  if m < 32768 then m else m - 65536

end F32

/-! ## `app_sensor_iaq.c`: threshold gate -/

/-- The literal `0.5f`. -/
def IAQ_THRESHOLD : F32 := F32.round (5 / 10)

/-- The literal `0.05f`. -/
def TVOC_THRESHOLD : F32 := F32.round (5 / 100)

/-- The literal `10.0f`. -/
def ECO2_THRESHOLD : F32 := F32.round 10

/-- The threshold memory `sensor_thresholds_t`. -/
structure sensor_thresholds_t where
  last_iaq : F32
  last_tvoc : F32
  last_eco2 : F32
  first_reading : Bool
  deriving DecidableEq

/-- The initial value of the static `m_thresholds`. -/
def m_thresholds_init : sensor_thresholds_t :=
  { last_iaq := F32.fin 0, last_tvoc := F32.fin 0, last_eco2 := F32.fin 0,
    first_reading := true }

/-- The function `is_valid_float`. -/
def is_valid_float (val : F32) : Bool :=
  if F32.ne val val then false
  else if F32.gt val (F32.round (10 ^ 10)) || F32.lt val (F32.neg (F32.round (10 ^ 10))) then false
  else true

/-- The function `should_publish_data`: the returned flag and the updated
threshold memory. -/
def should_publish_data (t : sensor_thresholds_t) (iaq tvoc eco2 : F32) :
    Bool × sensor_thresholds_t :=
  if t.first_reading then
    (true, { first_reading := false, last_iaq := iaq, last_tvoc := tvoc, last_eco2 := eco2 })
  else
    let iaq_changed := F32.ge (F32.fabsf (F32.sub iaq t.last_iaq)) IAQ_THRESHOLD
    let tvoc_changed := F32.ge (F32.fabsf (F32.sub tvoc t.last_tvoc)) TVOC_THRESHOLD
    let eco2_changed := F32.ge (F32.fabsf (F32.sub eco2 t.last_eco2)) ECO2_THRESHOLD
    if iaq_changed || tvoc_changed || eco2_changed then
      (true, { t with last_iaq := iaq, last_tvoc := tvoc, last_eco2 := eco2 })
    else
      (false, t)

/-- The function `app_sensor_iaq_reset_thresholds`. -/
def app_sensor_iaq_reset_thresholds (t : sensor_thresholds_t) : sensor_thresholds_t :=
  { t with first_reading := true }

/-! ## SDK interface -/

/-- Constants declared in SDK headers (`zmod4xxx.h`, `access.h`,
`device_state_manager.h`, `nrf_error.h`) that the sources use by name only. -/
structure SdkConsts where
  STATUS_SEQUENCER_RUNNING_MASK : ℕ
  ACCESS_HANDLE_INVALID : ℕ
  DSM_HANDLE_INVALID : ℕ
  NRF_SUCCESS : ℕ

/-- A call that leaves the module, in program order. -/
inductive Event where
  | read_status
  | read_adc_result
  | calc
  | start_measurement
  | gate (iaq tvoc eco2 : F32) (result : Bool)
  | mesh_publish (iaq tvoc eco2 : F32)
  | access_publish (payload : List ℕ)
  | uart_send (node_addr : ℕ) (iaq tvoc eco2 : F32)
  deriving DecidableEq

/-! ## `mesh_vendor_model.c` -/

def VENDOR_COMPANY_ID : ℕ := 0x0059
def VENDOR_OPCODE_SENSOR_VALUES : ℕ := 0xC1
def MAX_TRACKED_NODES : ℕ := 10

/-- The statics `s_received_nodes` and `s_received_node_count`. -/
structure NodeSet where
  s_received_nodes : List ℕ
  s_received_node_count : ℕ
  deriving DecidableEq

/-- The node set at program start: a zeroed array of `MAX_TRACKED_NODES`
entries and a zero count. -/
def NodeSet.init : NodeSet :=
  { s_received_nodes := List.replicate MAX_TRACKED_NODES 0, s_received_node_count := 0 }

/-- The entries the tracker looks at: the first `s_received_node_count`. -/
def NodeSet.tracked (ns : NodeSet) : List ℕ :=
  ns.s_received_nodes.take ns.s_received_node_count

/-- The scan loop of `is_first_reception_from_node`: whether some index
`i < s_received_node_count` holds `src_addr`. -/
def node_seen (ns : NodeSet) (src_addr : ℕ) : Bool :=
  (List.range ns.s_received_node_count).any
    (fun i => ns.s_received_nodes.getD i 0 == src_addr)

/-- The function `is_first_reception_from_node`: the returned flag and the
updated node set. -/
def is_first_reception_from_node (ns : NodeSet) (src_addr : ℕ) : Bool × NodeSet :=
  if node_seen ns src_addr then (false, ns)
  else if ns.s_received_node_count < MAX_TRACKED_NODES then
    (true, { s_received_nodes := ns.s_received_nodes.set ns.s_received_node_count src_addr,
             s_received_node_count := ns.s_received_node_count + 1 })
  else (true, ns)

/-- The fields of `access_message_rx_t` that `vendor_model_rx_cb` reads; the
`length` field is the number of bytes behind `p_data`. -/
structure access_message_rx_t where
  opcode : ℕ
  company_id : ℕ
  src : ℕ
  p_data : List ℕ
  deriving DecidableEq

/-- The field `p_message->length`. -/
def access_message_rx_t.length (m : access_message_rx_t) : ℕ := m.p_data.length

/-- The decoding step of `vendor_model_rx_cb`: `iaq_level`, `tvoc_x100`,
`eco2` and `iaq_x10` read from the bytes at `data`. -/
def rx_decode (data : ℕ → ℕ) : ℕ × ℕ × ℕ × ℕ :=
  let iaq_level := data 0
  let tvoc_x100 := (data 1 ||| (data 2 <<< 8)) % 65536
  let eco2 := (data 3 ||| (data 4 <<< 8)) % 65536
  let iaq_x10 := data 5
  (iaq_level, tvoc_x100, eco2, iaq_x10)

/-- The function `vendor_model_rx_cb`; `local_addr` is the `address_start`
that `dsm_local_unicast_addresses_get` reports. -/
def vendor_model_rx_cb (local_addr : ℕ) (ns : NodeSet) (m : access_message_rx_t) :
    NodeSet × List Event :=
  if m.opcode ≠ VENDOR_OPCODE_SENSOR_VALUES ∨ m.company_id ≠ VENDOR_COMPANY_ID then (ns, [])
  else
    let src_addr := m.src
    if src_addr = local_addr then (ns, [])
    else
      let r := is_first_reception_from_node ns src_addr
      if 6 ≤ m.length then
        let d := rx_decode (fun i => m.p_data.getD i 0)
        let tvoc_x100 := d.2.1
        let eco2 := d.2.2.1
        let iaq_x10 := d.2.2.2
        (r.2, [Event.uart_send src_addr
                (F32.div (F32.ofInt iaq_x10) (F32.round 10))
                (F32.div (F32.ofInt tvoc_x100) (F32.round 100))
                (F32.ofInt eco2)])
      else (r.2, [])

/-- The function `pack_payload`: the bytes written to `buf` and the value
stored in `*out_len`. -/
def pack_payload (iaq_level : ℕ) (iaq_float : F32) (tvoc_x100 eco2 : ℕ) : List ℕ × ℕ :=
  let iaq_x10 := F32.toUInt8 (F32.add (F32.mul iaq_float (F32.round 10)) (F32.round (5 / 10)))
  ([iaq_level,
    (tvoc_x100 &&& 0xFF) % 256,
    ((tvoc_x100 >>> 8) &&& 0xFF) % 256,
    (eco2 &&& 0xFF) % 256,
    ((eco2 >>> 8) &&& 0xFF) % 256,
    iaq_x10], 6)

/-- The statics of `mesh_vendor_model.c` that publishing reads or writes
(`s_warn_count` is the function-local static of `mesh_publish_sensor_values`). -/
structure VendorState where
  s_vendor_model_ready : Bool
  s_publish_configured : Bool
  s_appkey_handle : ℕ
  m_vendor_model_handle : ℕ
  s_warn_count : ℕ
  deriving DecidableEq

/-- The function `mesh_vendor_model_is_ready`. -/
def mesh_vendor_model_is_ready (v : VendorState) : Bool := v.s_vendor_model_ready

/-- The function `mesh_publish_sensor_values`; `publish_status` is the value
`access_model_publish` returns if it is called. -/
def mesh_publish_sensor_values (k : SdkConsts) (publish_status : ℕ) (v : VendorState)
    (iaq tvoc eco2 : F32) : VendorState × List Event :=
  if v.m_vendor_model_handle = k.ACCESS_HANDLE_INVALID then (v, [])
  else if F32.ne iaq iaq || F32.ne tvoc tvoc || F32.ne eco2 eco2 then (v, [])
  else if !v.s_publish_configured then
    ({ v with s_warn_count := (v.s_warn_count + 1) % 2 ^ 32 }, [])
  else if v.s_appkey_handle = k.DSM_HANDLE_INVALID then (v, [])
  else
    let iaq_level : ℕ :=
      if F32.lt iaq (F32.round 2) then 1
      else if F32.lt iaq (F32.round 3) then 2
      else if F32.lt iaq (F32.round 4) then 3
      else if F32.lt iaq (F32.round 5) then 4
      else 5
    let tvoc := if F32.lt tvoc (F32.round 0) then F32.round 0 else tvoc
    let tvoc := if F32.gt tvoc (F32.round (65535 / 100)) then F32.round (65535 / 100) else tvoc
    let eco2 := if F32.lt eco2 (F32.round 0) then F32.round 0 else eco2
    let eco2 := if F32.gt eco2 (F32.round 65535) then F32.round 65535 else eco2
    let tvoc_x100 := F32.toUInt16 (F32.add (F32.mul tvoc (F32.round 100)) (F32.round (5 / 10)))
    let eco2_i := F32.toUInt16 (F32.add eco2 (F32.round (5 / 10)))
    let p := pack_payload iaq_level iaq tvoc_x100 eco2_i
    let ev := Event.access_publish (p.1.take p.2)
    if publish_status = k.NRF_SUCCESS then (v, [ev])
    else ({ v with s_publish_configured := false }, [ev])

/-! ## `app_sensor_iaq.c`: the measurement tick -/

def IAQ_2ND_GEN_OK : ℤ := 0
def IAQ_2ND_GEN_STABILIZATION : ℤ := 1

/-- The fields of `iaq_2nd_gen_results_t` that the application reads. -/
structure iaq_2nd_gen_results_t where
  iaq : F32
  tvoc : F32
  eco2 : F32
  deriving DecidableEq

/-- The statics of `app_sensor_iaq.c` that a tick reads or writes. -/
structure SensorState where
  m_sample_count : ℕ
  m_algorithm_stable : Bool
  m_sensor_initialized : Bool
  m_thresholds : sensor_thresholds_t
  m_iaq_results : iaq_2nd_gen_results_t
  deriving DecidableEq

/-- What the SDK answers during one tick: the return value of each call, the
status byte, and the contents of `m_iaq_results` after `calc_iaq_2nd_gen`. -/
structure TickEnv where
  read_status_ret : ℤ
  status : ℕ
  read_adc_ret : ℤ
  calc_ret : ℤ
  calc_results : iaq_2nd_gen_results_t
  start_ret : ℤ
  publish_status : ℕ

/-- The part of `scheduled_meas_handler` from the call of `calc_iaq_2nd_gen`
up to the label `start_next`; every `goto start_next` is a return here.  The
values `iaq_frac`, `tvoc_int` and `tvoc_frac` feed only the log line and are
left out, as are all `__LOG` calls. -/
def meas_compute (k : SdkConsts) (env : TickEnv) (s : SensorState) (v : VendorState) :
    SensorState × VendorState × List Event :=
  let s := { s with m_iaq_results := env.calc_results,
                    m_sample_count := (s.m_sample_count + 1) % 65536 }
  if env.calc_ret = IAQ_2ND_GEN_STABILIZATION then (s, v, [Event.calc])
  else if env.calc_ret ≠ IAQ_2ND_GEN_OK then (s, v, [Event.calc])
  else
    let s := if !s.m_algorithm_stable then { s with m_algorithm_stable := true } else s
    let r := s.m_iaq_results
    if !is_valid_float r.iaq || !is_valid_float r.tvoc || !is_valid_float r.eco2 then
      (s, v, [Event.calc])
    else
      let iaq_int := F32.toInt16 r.iaq
      let eco2_int := F32.toUInt16 r.eco2
      if iaq_int < 0 ∨ iaq_int > 500 ∨ eco2_int > 10000 then (s, v, [Event.calc])
      else
        let g := should_publish_data s.m_thresholds r.iaq r.tvoc r.eco2
        let s := { s with m_thresholds := g.2 }
        let ev := [Event.calc, Event.gate r.iaq r.tvoc r.eco2 g.1]
        if g.1 then
          if mesh_vendor_model_is_ready v then
            let p := mesh_publish_sensor_values k env.publish_status v r.iaq r.tvoc r.eco2
            (s, p.1, ev ++ Event.mesh_publish r.iaq r.tvoc r.eco2 :: p.2)
          else (s, v, ev)
        else (s, v, ev)

/-- The function `scheduled_meas_handler`. -/
def scheduled_meas_handler (k : SdkConsts) (env : TickEnv) (s : SensorState) (v : VendorState) :
    SensorState × VendorState × List Event :=
  if !s.m_sensor_initialized then (s, v, [])
  else if env.read_status_ret ≠ 0 then (s, v, [Event.read_status])
  else if env.status &&& k.STATUS_SEQUENCER_RUNNING_MASK ≠ 0 then (s, v, [Event.read_status])
  else if env.read_adc_ret ≠ 0 then
    (s, v, [Event.read_status, Event.read_adc_result, Event.start_measurement])
  else
    let c := meas_compute k env s v
    (c.1, c.2.1, [Event.read_status, Event.read_adc_result] ++ c.2.2 ++ [Event.start_measurement])

/-! ## `app_uart_gateway.c` -/

/-- The C conversion `(int) x`: integer part, reduced modulo `2 ^ 32` into the
two's-complement range. -/
def F32.toInt32 (x : F32) : ℤ :=
  let m := F32.trunc x % 4294967296
  if m < 2147483648 then m else m - 4294967296

/-- One upper-case hexadecimal digit. -/
def hex_digit (n : ℕ) : Char :=
  if n < 10 then Char.ofNat (48 + n) else Char.ofNat (55 + n)

/-- The conversion `%04X` of a `uint16_t` argument. -/
def fmt_04X (n : ℕ) : List Char :=
  [hex_digit (n / 4096 % 16), hex_digit (n / 256 % 16), hex_digit (n / 16 % 16),
   hex_digit (n % 16)]

/-- The conversion `%d`. -/
def fmt_d (i : ℤ) : List Char :=
  if i < 0 then '-' :: Nat.toDigits 10 i.natAbs else Nat.toDigits 10 i.natAbs

/-- The conversion `%02d`: zero padding to a width of two, the sign counting
towards the width. -/
def fmt_02d (i : ℤ) : List Char :=
  if i < 0 then '-' :: Nat.toDigits 10 i.natAbs
  else if i < 10 then '0' :: Nat.toDigits 10 i.natAbs
  else Nat.toDigits 10 i.natAbs

/-- The function `app_uart_send_iaq_data`: the characters handed to
`app_uart_put`, in order.  `len` is the value `snprintf` returns, the length of
the complete formatted line. -/
def app_uart_send_iaq_data (m_uart_initialized : Bool) (node_addr : ℕ)
    (iaq tvoc eco2 : F32) : List Char :=
  if !m_uart_initialized then []
  else if F32.ne iaq iaq || F32.ne tvoc tvoc || F32.ne eco2 eco2 then []
  else
    let iaq_int := F32.toInt32 iaq
    let iaq_frac := F32.toInt32 (F32.mul (F32.sub iaq (F32.ofInt iaq_int)) (F32.ofInt 10))
    let tvoc_int := F32.toInt32 tvoc
    let tvoc_frac := F32.toInt32 (F32.mul (F32.sub tvoc (F32.ofInt tvoc_int)) (F32.ofInt 100))
    let eco2_int := F32.toInt32 (F32.add eco2 (F32.round (5 / 10)))
    let buf :=
      "\x7b\"node\":\"0x".toList ++ fmt_04X node_addr ++
      "\",\"iaq\":".toList ++ fmt_d iaq_int ++ ".".toList ++ fmt_d iaq_frac ++
      ",\"tvoc\":".toList ++ fmt_d tvoc_int ++ ".".toList ++ fmt_02d tvoc_frac ++
      ",\"eco2\":".toList ++ fmt_d eco2_int ++ "\x7d\n".toList
    let len := buf.length
    if 0 < len ∧ len < 96 then buf else []

/-! ## Named parts of `mesh_publish_sensor_values` and tick sequences -/

/-- The local `iaq_level` of `mesh_publish_sensor_values`. -/
def publish_iaq_level (iaq : F32) : ℕ :=
  if F32.lt iaq (F32.round 2) then 1
  else if F32.lt iaq (F32.round 3) then 2
  else if F32.lt iaq (F32.round 4) then 3
  else if F32.lt iaq (F32.round 5) then 4
  else 5

/-- The parameter `tvoc` of `mesh_publish_sensor_values` after the two clamping
statements. -/
def publish_tvoc_clamped (tvoc : F32) : F32 :=
  let tvoc := if F32.lt tvoc (F32.round 0) then F32.round 0 else tvoc
  if F32.gt tvoc (F32.round (65535 / 100)) then F32.round (65535 / 100) else tvoc

/-- The parameter `eco2` of `mesh_publish_sensor_values` after the two clamping
statements. -/
def publish_eco2_clamped (eco2 : F32) : F32 :=
  let eco2 := if F32.lt eco2 (F32.round 0) then F32.round 0 else eco2
  if F32.gt eco2 (F32.round 65535) then F32.round 65535 else eco2

/-- The local `tvoc_x100` of `mesh_publish_sensor_values`. -/
def publish_tvoc_x100 (tvoc : F32) : ℕ :=
  F32.toUInt16 (F32.add (F32.mul (publish_tvoc_clamped tvoc) (F32.round 100)) (F32.round (5 / 10)))

/-- The local `eco2_i` of `mesh_publish_sensor_values`. -/
def publish_eco2_i (eco2 : F32) : ℕ :=
  F32.toUInt16 (F32.add (publish_eco2_clamped eco2) (F32.round (5 / 10)))

/-- Consecutive runs of `scheduled_meas_handler`, one per entry of the list,
each on the statics the previous one left; the result carries one trace per
tick. -/
def run_ticks (k : SdkConsts) :
    List TickEnv → SensorState → VendorState → SensorState × VendorState × List (List Event)
  | [], s, v => (s, v, [])
  | env :: envs, s, v =>
    let r := scheduled_meas_handler k env s v
    let rest := run_ticks k envs r.1 r.2.1
    (rest.1, rest.2.1, r.2.2 :: rest.2.2)

/-- Consecutive calls of `is_first_reception_from_node`, one per entry of the
list, each on the node set the previous one left. -/
def run_nodes (ns : NodeSet) : List ℕ → NodeSet
  | [] => ns
  | x :: xs => run_nodes (is_first_reception_from_node ns x).2 xs

/-! ## Reference scenario -/

/-- Sample values for the SDK constants (those of the nRF5 mesh SDK and the
ZMOD4xxx driver headers). -/
def sdk_consts : SdkConsts :=
  { STATUS_SEQUENCER_RUNNING_MASK := 0x80, ACCESS_HANDLE_INVALID := 0xFFFF,
    DSM_HANDLE_INVALID := 0xFFFF, NRF_SUCCESS := 0 }

/-- The sensor statics after `app_sensor_iaq_init` succeeded: `sensor_init_zmod`
zeroes the sample count, the stable flag and `m_iaq_results`; the threshold
memory still has its initial value. -/
def sensor_ready : SensorState :=
  { m_sample_count := 0, m_algorithm_stable := false, m_sensor_initialized := true,
    m_thresholds := m_thresholds_init,
    m_iaq_results := { iaq := F32.fin 0, tvoc := F32.fin 0, eco2 := F32.fin 0 } }

/-- The vendor-model statics after `mesh_vendor_model_init` succeeded and
`mesh_vendor_model_publication_set` found a bound AppKey (handle 0). -/
def vendor_configured : VendorState :=
  { s_vendor_model_ready := true, s_publish_configured := true, s_appkey_handle := 0,
    m_vendor_model_handle := 0, s_warn_count := 0 }

/-- A tick in which the device is idle, every SDK call succeeds and
`calc_iaq_2nd_gen` returns `IAQ_2ND_GEN_OK` with the reading `r`. -/
def tick_ok (r : iaq_2nd_gen_results_t) : TickEnv :=
  { read_status_ret := 0, status := 0, read_adc_ret := 0, calc_ret := IAQ_2ND_GEN_OK,
    calc_results := r, start_ret := 0, publish_status := 0 }

/-! ## Vocabulary of the specification -/

/-- The exact magnitude of `x` is greater than `B` (an infinity exceeds every
bound, NaN has no magnitude). -/
def F32.MagnitudeExceeds (x : F32) (B : ℚ) : Prop :=
  match x with
  | F32.nan => False
  | F32.inf _ => True
  | F32.fin q => B < |q|

/-- Both values are finite and their exact difference is at most `tol`. -/
def F32.Within (x y : F32) (tol : ℚ) : Prop :=
  match x, y with
  | F32.fin a, F32.fin b => |a - b| ≤ tol
  | _, _ => False

instance (x y : F32) (tol : ℚ) : Decidable (F32.Within x y tol) :=
  match x, y with
  | F32.fin a, F32.fin b => inferInstanceAs (Decidable (|a - b| ≤ tol))
  | F32.nan, _ => isFalse (by simp [F32.Within])
  | F32.inf _, _ => isFalse (by simp [F32.Within])
  | F32.fin _, F32.nan => isFalse (by simp [F32.Within])
  | F32.fin _, F32.inf _ => isFalse (by simp [F32.Within])

/-- The readings for which the gate returned true, in call order. -/
def approved_readings (tr : List Event) : List (F32 × F32 × F32) :=
  tr.filterMap fun e =>
    match e with
    | Event.gate iaq tvoc eco2 true => some (iaq, tvoc, eco2)
    | _ => none

/-- A tick that finds the device idle, reads the ADC result and is told
`IAQ_2ND_GEN_STABILIZATION` by the compute step. -/
def IsStabilizingTick (k : SdkConsts) (env : TickEnv) : Prop :=
  env.read_status_ret = 0 ∧ env.status &&& k.STATUS_SEQUENCER_RUNNING_MASK = 0 ∧
  env.read_adc_ret = 0 ∧ env.calc_ret = IAQ_2ND_GEN_STABILIZATION

/-- A tick that finds the device idle, reads the ADC result and is told
`IAQ_2ND_GEN_OK` by the compute step, with a reading that passes the float
validity check and the integer range check. -/
def IsOkTick (k : SdkConsts) (env : TickEnv) : Prop :=
  env.read_status_ret = 0 ∧ env.status &&& k.STATUS_SEQUENCER_RUNNING_MASK = 0 ∧
  env.read_adc_ret = 0 ∧ env.calc_ret = IAQ_2ND_GEN_OK ∧
  is_valid_float env.calc_results.iaq = true ∧ is_valid_float env.calc_results.tvoc = true ∧
  is_valid_float env.calc_results.eco2 = true ∧
  0 ≤ F32.toInt16 env.calc_results.iaq ∧ F32.toInt16 env.calc_results.iaq ≤ 500 ∧
  F32.toUInt16 env.calc_results.eco2 ≤ 10000

/-- The distinct entries of a list, in the order of their first appearance. -/
def first_appearances : List ℕ → List ℕ
  | [] => []
  | x :: xs => x :: (first_appearances xs).filter (fun y => decide (y ≠ x))

/-- The array has its 10 slots, the count is at most 10, and the tracked
entries are pairwise distinct. -/
def NodeSet.WellFormed (ns : NodeSet) : Prop :=
  ns.s_received_nodes.length = 10 ∧ ns.s_received_node_count ≤ 10 ∧ ns.tracked.Nodup

/-- The exact value of `x` clamped to `[lo, hi]`; an infinity clamps to the
bound on its side (NaN is given `lo`). -/
def F32.clampQ (x : F32) (lo hi : ℚ) : ℚ :=
  match x with
  | F32.fin q => max lo (min q hi)
  | F32.inf true => lo
  | F32.inf false => hi
  | F32.nan => lo

/-- The exact magnitude of `x` is at least `B` (an infinity reaches every
bound, NaN has no magnitude). -/
def F32.MagnitudeAtLeast (x : F32) (B : ℚ) : Prop :=
  match x with
  | F32.nan => False
  | F32.inf _ => True
  | F32.fin q => B ≤ |q|

/-! ## Facts about the binary32 model -/

theorem IAQ_THRESHOLD_eq : IAQ_THRESHOLD = F32.fin (1 / 2) := by decide!

theorem TVOC_THRESHOLD_eq : TVOC_THRESHOLD = F32.fin (13421773 / 268435456) := by decide!

theorem ECO2_THRESHOLD_eq : ECO2_THRESHOLD = F32.fin 10 := by decide!

theorem F32.round_1e10 : F32.round (10 ^ 10) = F32.fin (10 ^ 10) := by decide!

/-- A strict `<` excludes `>=`, also in the presence of NaN and infinities. -/
theorem F32.ge_eq_false_of_lt (x y : F32) (h : F32.lt x y = true) : F32.ge x y = false := by
  cases x <;> cases y <;> simp_all [F32.lt, F32.ge, F32.le]

/-! ## Threshold gate -/

/-- The gate in terms of its three binary32 comparisons: once a baseline is
stored (`first_reading = false`), `should_publish_data` returns true exactly
when one of `fabsf(iaq - last_iaq) >= 0.5f`, `fabsf(tvoc - last_tvoc) >= 0.05f`,
`fabsf(eco2 - last_eco2) >= 10.0f` holds.  What this means for the exact deltas
is settled in the section on exact deltas. -/
theorem should_publish_data_iff_threshold (t : sensor_thresholds_t) (iaq tvoc eco2 : F32)
    (h : t.first_reading = false) :
    ((should_publish_data t iaq tvoc eco2).1 = true ↔
      (F32.ge (F32.fabsf (F32.sub iaq t.last_iaq)) (F32.fin (1 / 2)) = true ∨
       F32.ge (F32.fabsf (F32.sub tvoc t.last_tvoc)) (F32.round (5 / 100)) = true ∨
       F32.ge (F32.fabsf (F32.sub eco2 t.last_eco2)) (F32.fin 10) = true)) ∧
    (F32.lt (F32.fabsf (F32.sub iaq t.last_iaq)) (F32.fin (1 / 2)) = true →
     F32.lt (F32.fabsf (F32.sub tvoc t.last_tvoc)) (F32.round (5 / 100)) = true →
     F32.lt (F32.fabsf (F32.sub eco2 t.last_eco2)) (F32.fin 10) = true →
      (should_publish_data t iaq tvoc eco2).1 = false) := by
  have key : (should_publish_data t iaq tvoc eco2).1 = true ↔
      (F32.ge (F32.fabsf (F32.sub iaq t.last_iaq)) (F32.fin (1 / 2)) = true ∨
       F32.ge (F32.fabsf (F32.sub tvoc t.last_tvoc)) (F32.round (5 / 100)) = true ∨
       F32.ge (F32.fabsf (F32.sub eco2 t.last_eco2)) (F32.fin 10) = true) := by
    rw [← IAQ_THRESHOLD_eq, ← ECO2_THRESHOLD_eq]
    show _ ↔ (_ ∨ F32.ge _ TVOC_THRESHOLD = true ∨ _)
    unfold should_publish_data
    simp only [h, Bool.false_eq_true, if_false]
    split <;> rename_i hc <;> simp only [Bool.or_eq_true, or_assoc] at hc <;> simp [hc]
  refine ⟨key, fun h1 h2 h3 => ?_⟩
  have n1 := F32.ge_eq_false_of_lt _ _ h1
  have n2 := F32.ge_eq_false_of_lt _ _ h2
  have n3 := F32.ge_eq_false_of_lt _ _ h3
  cases hr : (should_publish_data t iaq tvoc eco2).1
  · rfl
  · rcases key.mp hr with h | h | h <;> simp_all

/-- C2: from the initial threshold memory, `should_publish_data` returns true
for every reading, stores that reading as the baseline and clears the
first-reading flag. -/
theorem should_publish_data_first (iaq tvoc eco2 : F32) :
    should_publish_data m_thresholds_init iaq tvoc eco2 =
      (true, { last_iaq := iaq, last_tvoc := tvoc, last_eco2 := eco2,
               first_reading := false }) := by
  simp [should_publish_data, m_thresholds_init]

/-- C3: when `should_publish_data` returns true, all three baseline fields hold
the new reading afterwards; when it returns false, the threshold memory is
unchanged. -/
theorem should_publish_data_frame (t : sensor_thresholds_t) (iaq tvoc eco2 : F32) :
    ((should_publish_data t iaq tvoc eco2).1 = true →
      (should_publish_data t iaq tvoc eco2).2.last_iaq = iaq ∧
      (should_publish_data t iaq tvoc eco2).2.last_tvoc = tvoc ∧
      (should_publish_data t iaq tvoc eco2).2.last_eco2 = eco2 ∧
      (should_publish_data t iaq tvoc eco2).2.first_reading = false) ∧
    ((should_publish_data t iaq tvoc eco2).1 = false →
      (should_publish_data t iaq tvoc eco2).2 = t) := by
  unfold should_publish_data
  cases hf : t.first_reading
  · simp only [Bool.false_eq_true, if_false]
    split <;> simp [hf]
  · simp

/-! ## Payload codec -/

theorem and_0xFF (x : ℕ) : x &&& 0xFF = x % 256 :=
  Nat.and_pow_two_sub_one_eq_mod x 8

theorem shiftRight_8 (x : ℕ) : x >>> 8 = x / 256 :=
  Nat.shiftRight_eq_div_pow x 8

/-- Little-endian recombination of the two bytes of a 16-bit value. -/
theorem lor_shiftLeft_8 (x : ℕ) (h : x < 65536) :
    (x % 256 ||| ((x / 256) <<< 8)) % 65536 = x := by
  have e : x % 256 ||| ((x / 256) <<< 8) = 2 ^ 8 * (x / 256) + x % 256 := by
    rw [Nat.mul_add_lt_is_or (Nat.mod_lt x (by norm_num)) (x / 256), Nat.shiftLeft_eq,
      Nat.or_comm, Nat.mul_comm]
  rw [e]
  omega

theorem pack_payload_eq (iaq_level : ℕ) (iaq_float : F32) (tvoc_x100 eco2 : ℕ)
    (ht : tvoc_x100 < 65536) (he : eco2 < 65536) :
    pack_payload iaq_level iaq_float tvoc_x100 eco2 =
      ([iaq_level, tvoc_x100 % 256, tvoc_x100 / 256, eco2 % 256, eco2 / 256,
        F32.toUInt8 (F32.add (F32.mul iaq_float (F32.fin 10)) (F32.fin (1 / 2)))], 6) := by
  have r10 : F32.round 10 = F32.fin 10 := by decide!
  have r05 : F32.round (5 / 10) = F32.fin (1 / 2) := by decide!
  unfold pack_payload
  simp only [and_0xFF, shiftRight_8, r10, r05, Nat.mod_mod]
  have h1 : tvoc_x100 / 256 % 256 = tvoc_x100 / 256 := Nat.mod_eq_of_lt (by omega)
  have h2 : eco2 / 256 % 256 = eco2 / 256 := Nat.mod_eq_of_lt (by omega)
  rw [h1, h2]

/-- C4: for a `uint8_t` level and `uint16_t` values, `pack_payload` writes six
bytes and sets `*out_len` to 6: byte 0 is the level, bytes 1-2 are `tvoc_x100`
low byte first, bytes 3-4 are `eco2` low byte first, and byte 5 is
`(uint8_t)(iaq_float * 10.0f + 0.5f)`, which is 23 for the IAQ value `2.3f`;
every byte is below 256. -/
theorem pack_payload_layout (iaq_level : ℕ) (iaq_float : F32) (tvoc_x100 eco2 : ℕ)
    (hl : iaq_level < 256) (ht : tvoc_x100 < 65536) (he : eco2 < 65536) :
    pack_payload iaq_level iaq_float tvoc_x100 eco2 =
      ([iaq_level, tvoc_x100 % 256, tvoc_x100 / 256, eco2 % 256, eco2 / 256,
        F32.toUInt8 (F32.add (F32.mul iaq_float (F32.fin 10)) (F32.fin (1 / 2)))], 6) ∧
    (pack_payload iaq_level iaq_float tvoc_x100 eco2).1.length = 6 ∧
    (∀ b ∈ (pack_payload iaq_level iaq_float tvoc_x100 eco2).1, b < 256) ∧
    (pack_payload iaq_level (F32.round (23 / 10)) tvoc_x100 eco2).1.getD 5 0 = 23 := by
  have e := pack_payload_eq iaq_level iaq_float tvoc_x100 eco2 ht he
  have e23 := pack_payload_eq iaq_level (F32.round (23 / 10)) tvoc_x100 eco2 ht he
  have b23 : F32.toUInt8 (F32.add (F32.mul (F32.round (23 / 10)) (F32.fin 10))
      (F32.fin (1 / 2))) = 23 := by decide!
  refine ⟨e, ?_, ?_, ?_⟩
  · rw [e]; rfl
  · rw [e]
    intro b hb
    have h5 : F32.toUInt8 (F32.add (F32.mul iaq_float (F32.fin 10)) (F32.fin (1 / 2)))
        < 256 := by
      unfold F32.toUInt8
      omega
    simp only [List.mem_cons, List.mem_singleton, List.not_mem_nil, or_false] at hb
    rcases hb with h | h | h | h | h | h <;> omega
  · rw [e23, b23]; rfl

/-- The reading level 1, `tvoc_x100 = 45`, `eco2 = 680` with IAQ `2.3f` packs to
the bytes `01 2D 00 A8 02 17`. -/
theorem pack_payload_layout_witness :
    pack_payload 1 (F32.round (23 / 10)) 45 680 = ([1, 45, 0, 168, 2, 23], 6) :=
  ((pack_payload_layout 1 (F32.round (23 / 10)) 45 680
      (by decide) (by decide) (by decide)).1).trans (by decide!)

/-- C5: decoding, as `vendor_model_rx_cb` does, the six bytes written by
`pack_payload` gives back `iaq_level`, `tvoc_x100` and `eco2`, and gives as
`iaq_x10` the byte 5 that `pack_payload` stored. -/
theorem rx_decode_pack_payload (iaq_level : ℕ) (iaq_float : F32) (tvoc_x100 eco2 : ℕ)
    (ht : tvoc_x100 < 65536) (he : eco2 < 65536) :
    rx_decode (fun i => (pack_payload iaq_level iaq_float tvoc_x100 eco2).1.getD i 0) =
      (iaq_level, tvoc_x100, eco2,
        (pack_payload iaq_level iaq_float tvoc_x100 eco2).1.getD 5 0) := by
  rw [pack_payload_eq iaq_level iaq_float tvoc_x100 eco2 ht he]
  simp only [rx_decode, List.getD_cons_zero, List.getD_cons_succ]
  rw [lor_shiftLeft_8 tvoc_x100 ht, lor_shiftLeft_8 eco2 he]

/-- Decoding the packed reading level 1, `tvoc_x100 = 45`, `eco2 = 680`, IAQ `2.3f`. -/
theorem rx_decode_pack_payload_witness :
    rx_decode (fun i => (pack_payload 1 (F32.round (23 / 10)) 45 680).1.getD i 0) =
      (1, 45, 680, 23) :=
  (rx_decode_pack_payload 1 (F32.round (23 / 10)) 45 680
      (by decide) (by decide)).trans (by decide!)

/-! ## Node tracker -/

/-- The scan loop finds `x` exactly when `x` is one of the tracked entries. -/
theorem node_seen_iff (ns : NodeSet) (x : ℕ)
    (hc : ns.s_received_node_count ≤ ns.s_received_nodes.length) :
    node_seen ns x = true ↔ x ∈ ns.tracked := by
  unfold node_seen NodeSet.tracked
  rw [List.any_eq_true, List.mem_iff_getElem]
  constructor
  · rintro ⟨i, hi, hx⟩
    rw [List.mem_range] at hi
    have hi2 : i < ns.s_received_nodes.length := lt_of_lt_of_le hi hc
    refine ⟨i, by simp [List.length_take]; omega, ?_⟩
    rw [List.getElem_take]
    rw [List.getD_eq_getElem _ _ hi2] at hx
    simpa using hx
  · rintro ⟨i, hi, hx⟩
    have hi1 : i < ns.s_received_node_count := by
      simp [List.length_take] at hi; omega
    have hi2 : i < ns.s_received_nodes.length := lt_of_lt_of_le hi1 hc
    refine ⟨i, List.mem_range.mpr hi1, ?_⟩
    rw [List.getElem_take] at hx
    rw [List.getD_eq_getElem _ _ hi2]
    simpa using hx

/-- Writing slot `n` and extending the count by one appends to the tracked list. -/
theorem take_succ_set (l : List ℕ) (n x : ℕ) (h : n < l.length) :
    (l.set n x).take (n + 1) = l.take n ++ [x] := by
  induction l generalizing n with
  | nil => simp at h
  | cons a l ih =>
    cases n with
    | zero => simp
    | succ n =>
      simp only [List.length_cons, Nat.add_lt_add_iff_right] at h
      simp [List.set, ih n h]

/-- C6: on a node set whose array has 10 slots and whose count is at most 10,
`is_first_reception_from_node x` returns false and changes nothing when `x` is
tracked; when `x` is not tracked and the count is below 10 it returns true,
writes `x` at index `count` and increments the count, so the tracked list
becomes the old one with `x` appended; when `x` is not tracked and the count is
10 it returns true and changes nothing. -/
theorem is_first_reception_from_node_spec (ns : NodeSet) (x : ℕ)
    (hlen : ns.s_received_nodes.length = 10) (hc : ns.s_received_node_count ≤ 10) :
    (x ∈ ns.tracked → is_first_reception_from_node ns x = (false, ns)) ∧
    (x ∉ ns.tracked → ns.s_received_node_count < 10 →
      (is_first_reception_from_node ns x).1 = true ∧
      (is_first_reception_from_node ns x).2.tracked = ns.tracked ++ [x] ∧
      (is_first_reception_from_node ns x).2.s_received_node_count
        = ns.s_received_node_count + 1 ∧
      (is_first_reception_from_node ns x).2.s_received_nodes
        = ns.s_received_nodes.set ns.s_received_node_count x ∧
      (is_first_reception_from_node ns x).2.s_received_nodes.length = 10) ∧
    (x ∉ ns.tracked → ns.s_received_node_count = 10 →
      is_first_reception_from_node ns x = (true, ns)) := by
  have hs := node_seen_iff ns x (by omega)
  refine ⟨fun hx => ?_, fun hx hlt => ?_, fun hx heq => ?_⟩
  · simp [is_first_reception_from_node, hs.mpr hx]
  · have hn : node_seen ns x = false := by
      cases h : node_seen ns x
      · rfl
      · exact absurd (hs.mp h) hx
    have e : is_first_reception_from_node ns x =
        (true, { s_received_nodes := ns.s_received_nodes.set ns.s_received_node_count x,
                 s_received_node_count := ns.s_received_node_count + 1 }) := by
      simp [is_first_reception_from_node, hn, MAX_TRACKED_NODES, hlt]
    rw [e]
    refine ⟨rfl, ?_, rfl, rfl, by simp [hlen]⟩
    exact take_succ_set _ _ _ (by omega)
  · have hn : node_seen ns x = false := by
      cases h : node_seen ns x
      · rfl
      · exact absurd (hs.mp h) hx
    simp [is_first_reception_from_node, hn, MAX_TRACKED_NODES, heq]

/-- From the empty node set, the address `0x0029` is classified first and
recorded as the only tracked entry. -/
theorem is_first_reception_from_node_spec_witness :
    (is_first_reception_from_node NodeSet.init 0x0029).1 = true ∧
    (is_first_reception_from_node NodeSet.init 0x0029).2.tracked = [0x0029] :=
  have h := (is_first_reception_from_node_spec NodeSet.init 0x0029 (by decide) (by decide)).2.1
    (by decide) (by decide)
  ⟨h.1, h.2.1⟩

/-! ## Inbound fan-out -/

theorem F32.round_10 : F32.round 10 = F32.fin 10 := by decide!

theorem F32.round_100 : F32.round 100 = F32.fin 100 := by decide!

/-- C7: `vendor_model_rx_cb` calls `app_uart_send_iaq_data` exactly once, with
the source address and the values `iaq_x10 / 10.0f`, `tvoc_x100 / 100.0f` and
`eco2` decoded from the first six bytes, when the opcode is `0xC1`, the company
id is `0x0059`, the source is not the local address and the length is at least
6; otherwise it makes no call.  Two consecutive accepted messages from `0x0029`,
starting from the empty node set, are classified first and then repeat, and
each is forwarded. -/
theorem vendor_model_rx_cb_forwards (local_addr : ℕ) (ns : NodeSet) (m : access_message_rx_t) :
    ((m.opcode = 0xC1 ∧ m.company_id = 0x0059 ∧ m.src ≠ local_addr ∧ 6 ≤ m.length) →
      (vendor_model_rx_cb local_addr ns m).2 =
        [Event.uart_send m.src
          (F32.div (F32.ofInt (m.p_data.getD 5 0 : ℕ)) (F32.fin 10))
          (F32.div
            (F32.ofInt (((m.p_data.getD 1 0 ||| (m.p_data.getD 2 0 <<< 8)) % 65536 : ℕ)))
            (F32.fin 100))
          (F32.ofInt (((m.p_data.getD 3 0 ||| (m.p_data.getD 4 0 <<< 8)) % 65536 : ℕ)))]) ∧
    (¬ (m.opcode = 0xC1 ∧ m.company_id = 0x0059 ∧ m.src ≠ local_addr ∧ 6 ≤ m.length) →
      (vendor_model_rx_cb local_addr ns m).2 = []) ∧
    (∀ m2 : access_message_rx_t,
      m.opcode = 0xC1 ∧ m.company_id = 0x0059 ∧ 6 ≤ m.length ∧ m.src = 0x0029 →
      m2.opcode = 0xC1 ∧ m2.company_id = 0x0059 ∧ 6 ≤ m2.length ∧ m2.src = 0x0029 →
      local_addr ≠ 0x0029 →
      (is_first_reception_from_node NodeSet.init 0x0029).1 = true ∧
      (is_first_reception_from_node
        (vendor_model_rx_cb local_addr NodeSet.init m).1 0x0029).1 = false ∧
      (vendor_model_rx_cb local_addr NodeSet.init m).2.length = 1 ∧
      (vendor_model_rx_cb local_addr
        (vendor_model_rx_cb local_addr NodeSet.init m).1 m2).2.length = 1) := by
  refine ⟨?_, ?_, ?_⟩
  · rintro ⟨ho, hc, hs, hl⟩
    simp [vendor_model_rx_cb, rx_decode, VENDOR_OPCODE_SENSOR_VALUES, VENDOR_COMPANY_ID,
      ho, hc, hs, hl, F32.round_10, F32.round_100]
  · intro hn
    unfold vendor_model_rx_cb
    simp only [VENDOR_OPCODE_SENSOR_VALUES, VENDOR_COMPANY_ID]
    by_cases ho : m.opcode = 0xC1
    · by_cases hc : m.company_id = 0x0059
      · by_cases hs : m.src = local_addr
        · simp [ho, hc, hs]
        · have hl : ¬ 6 ≤ m.length := fun hl => hn ⟨ho, hc, hs, hl⟩
          simp [ho, hc, hs, hl]
      · simp [hc]
    · simp [ho]
  · rintro m2 ⟨ho, hc, hl, hs⟩ ⟨ho2, hc2, hl2, hs2⟩ hla
    have hla1 : ¬ (m.src = local_addr) := by rw [hs]; exact fun h => hla h.symm
    have hla2 : ¬ (m2.src = local_addr) := by rw [hs2]; exact fun h => hla h.symm
    have hla3 : ¬ ((41 : ℕ) = local_addr) := fun h => hla h.symm
    have e1 : (vendor_model_rx_cb local_addr NodeSet.init m).1 =
        (is_first_reception_from_node NodeSet.init 0x0029).2 := by
      simp [vendor_model_rx_cb, VENDOR_OPCODE_SENSOR_VALUES, VENDOR_COMPANY_ID,
        ho, hc, hla3, hl, hs]
    refine ⟨by decide, ?_, ?_, ?_⟩
    · rw [e1]; decide
    · simp [vendor_model_rx_cb, VENDOR_OPCODE_SENSOR_VALUES, VENDOR_COMPANY_ID,
        ho, hc, hla1, hl]
    · simp [vendor_model_rx_cb, VENDOR_OPCODE_SENSOR_VALUES, VENDOR_COMPANY_ID,
        ho2, hc2, hla2, hl2]

/-- The message `01 2D 00 A8 02 17` from `0x0029`, received by the node with
local address `0x0001`, is forwarded as IAQ `23 / 10.0f`, TVOC `45 / 100.0f`
and eCO2 `680`. -/
theorem vendor_model_rx_cb_forwards_witness :
    (vendor_model_rx_cb 0x0001 NodeSet.init
        { opcode := 0xC1, company_id := 0x0059, src := 0x0029,
          p_data := [1, 45, 0, 168, 2, 23] }).2 =
      [Event.uart_send 0x0029 (F32.round (23 / 10)) (F32.round (45 / 100)) (F32.fin 680)] :=
  ((vendor_model_rx_cb_forwards 0x0001 NodeSet.init
        { opcode := 0xC1, company_id := 0x0059, src := 0x0029,
          p_data := [1, 45, 0, 168, 2, 23] }).1
      ⟨rfl, rfl, by decide, by decide⟩).trans (by decide!)

/-! ## Measurement tick -/

/-- Publishing never touches the sensor device. -/
theorem mesh_publish_sensor_values_events (k : SdkConsts) (st : ℕ) (v : VendorState)
    (iaq tvoc eco2 : F32) :
    ∀ e ∈ (mesh_publish_sensor_values k st v iaq tvoc eco2).2, ∃ p, e = Event.access_publish p := by
  unfold mesh_publish_sensor_values
  intro e he
  split_ifs at he <;> simp at he <;> exact ⟨_, he⟩

/-- Between the ADC read and the label `start_next` the device is not re-armed. -/
theorem meas_compute_no_start (k : SdkConsts) (env : TickEnv) (s : SensorState)
    (v : VendorState) :
    Event.start_measurement ∉ (meas_compute k env s v).2.2 := by
  unfold meas_compute
  intro hmem
  simp only [] at hmem
  split_ifs at hmem <;> simp at hmem <;>
    (obtain ⟨p, hp⟩ := mesh_publish_sensor_values_events _ _ _ _ _ _ _ hmem
     cases hp)

/-- C8: on a tick with an initialised sensor whose status read succeeds and
shows the sequencer idle, `zmod4xxx_start_measurement` is called exactly once
and it is the last call of the tick, whatever the ADC read, the compute step,
the validity and range checks, the gate and the publish path do. -/
theorem scheduled_meas_handler_rearms_once (k : SdkConsts) (env : TickEnv)
    (s : SensorState) (v : VendorState)
    (hinit : s.m_sensor_initialized = true) (hst : env.read_status_ret = 0)
    (hidle : env.status &&& k.STATUS_SEQUENCER_RUNNING_MASK = 0) :
    (scheduled_meas_handler k env s v).2.2.count Event.start_measurement = 1 ∧
    (scheduled_meas_handler k env s v).2.2.getLast? = some Event.start_measurement := by
  unfold scheduled_meas_handler
  simp only [hinit, hst, hidle, Bool.not_true, Bool.false_eq_true, if_false, ne_eq,
    not_true_eq_false]
  split_ifs with hadc
  · have h0 := List.count_eq_zero_of_not_mem (meas_compute_no_start k env s v)
    refine ⟨by simp [List.count_append, h0, List.count_cons], ?_⟩
    show (([Event.read_status, Event.read_adc_result] ++ (meas_compute k env s v).2.2)
      ++ [Event.start_measurement]).getLast? = _
    exact List.getLast?_concat _
  · exact ⟨by simp [List.count_cons], by simp⟩

/-- In the reference scenario a tick that delivers the reading (2.5, 0.5, 680)
re-arms the device once, as its last call. -/
theorem scheduled_meas_handler_rearms_once_witness :
    (scheduled_meas_handler sdk_consts
        (tick_ok { iaq := F32.fin (5 / 2), tvoc := F32.fin (1 / 2), eco2 := F32.fin 680 })
        sensor_ready vendor_configured).2.2.count Event.start_measurement = 1 ∧
    (scheduled_meas_handler sdk_consts
        (tick_ok { iaq := F32.fin (5 / 2), tvoc := F32.fin (1 / 2), eco2 := F32.fin 680 })
        sensor_ready vendor_configured).2.2.getLast? = some Event.start_measurement :=
  scheduled_meas_handler_rearms_once sdk_consts
    (tick_ok { iaq := F32.fin (5 / 2), tvoc := F32.fin (1 / 2), eco2 := F32.fin 680 })
    sensor_ready vendor_configured rfl rfl (by decide)

/-- The float validity check rejects exactly NaN and magnitudes above `1e10`. -/
theorem is_valid_float_eq_false_iff (x : F32) :
    is_valid_float x = false ↔ (x = F32.nan ∨ F32.MagnitudeExceeds x (10 ^ 10)) := by
  unfold is_valid_float
  rw [F32.round_1e10]
  cases x with
  | nan => simp [F32.ne]
  | inf b => cases b <;> simp [F32.ne, F32.gt, F32.lt, F32.neg, F32.MagnitudeExceeds]
  | fin q =>
    simp only [F32.ne, F32.gt, F32.lt, F32.neg, F32.MagnitudeExceeds, ne_eq, not_true_eq_false,
      decide_False, Bool.false_eq_true, if_false, Bool.or_eq_true, decide_eq_true_eq,
      false_or, lt_abs]
    constructor
    · intro h
      split_ifs at h with hc
      · rcases hc with hc | hc
        · exact Or.inr (Or.inl hc)
        · exact Or.inr (Or.inr (by linarith))
    · intro h
      have hc : (10 : ℚ) ^ 10 < q ∨ q < -10 ^ 10 := by
        rcases h with h | h | h
        · cases h
        · exact Or.inl h
        · exact Or.inr (by linarith)
      simp [hc]

/-- The trace and state of a tick whose reading fails a check after the compute
step returned `IAQ_2ND_GEN_OK`. -/
theorem meas_compute_invalid (k : SdkConsts) (env : TickEnv) (s : SensorState)
    (v : VendorState) (hok : env.calc_ret = IAQ_2ND_GEN_OK)
    (hbad : is_valid_float env.calc_results.iaq = false ∨
            is_valid_float env.calc_results.tvoc = false ∨
            is_valid_float env.calc_results.eco2 = false) :
    (meas_compute k env s v).2.2 = [Event.calc] ∧
    (meas_compute k env s v).2.1 = v ∧
    (meas_compute k env s v).1.m_thresholds = s.m_thresholds := by
  have h1 : ¬ (env.calc_ret = IAQ_2ND_GEN_STABILIZATION) := by rw [hok]; decide
  have hb : (!is_valid_float env.calc_results.iaq || !is_valid_float env.calc_results.tvoc
      || !is_valid_float env.calc_results.eco2) = true := by
    rcases hbad with h | h | h <;> simp [h]
  unfold meas_compute
  simp only [h1, hok, if_false, ne_eq, not_true_eq_false]
  split_ifs <;> simp_all

/-- C10: `is_valid_float` returns false exactly for NaN and for magnitudes
above `1e10` (so true for every other value); on a tick whose compute step
returns Ok with such a field, the only calls are the status read, the ADC read,
the compute step and the re-arm: the gate is not called, the threshold memory
and the vendor-model state are unchanged, and nothing is published. -/
theorem invalid_float_reading_discarded (k : SdkConsts) (env : TickEnv) (s : SensorState)
    (v : VendorState)
    (hinit : s.m_sensor_initialized = true) (hst : env.read_status_ret = 0)
    (hidle : env.status &&& k.STATUS_SEQUENCER_RUNNING_MASK = 0)
    (hadc : env.read_adc_ret = 0) (hok : env.calc_ret = IAQ_2ND_GEN_OK)
    (hbad : ∃ x ∈ [env.calc_results.iaq, env.calc_results.tvoc, env.calc_results.eco2],
      x = F32.nan ∨ F32.MagnitudeExceeds x (10 ^ 10)) :
    (∀ x : F32, is_valid_float x = false ↔ (x = F32.nan ∨ F32.MagnitudeExceeds x (10 ^ 10))) ∧
    (∀ q : ℚ, |q| ≤ 10 ^ 10 → is_valid_float (F32.fin q) = true) ∧
    (∃ x ∈ [env.calc_results.iaq, env.calc_results.tvoc, env.calc_results.eco2],
      is_valid_float x = false) ∧
    (scheduled_meas_handler k env s v).2.2 =
      [Event.read_status, Event.read_adc_result, Event.calc, Event.start_measurement] ∧
    (scheduled_meas_handler k env s v).1.m_thresholds = s.m_thresholds ∧
    (scheduled_meas_handler k env s v).2.1 = v := by
  obtain ⟨x, hx, hxbad⟩ := hbad
  have hxf : is_valid_float x = false := (is_valid_float_eq_false_iff x).mpr hxbad
  have hb : is_valid_float env.calc_results.iaq = false ∨
            is_valid_float env.calc_results.tvoc = false ∨
            is_valid_float env.calc_results.eco2 = false := by
    simp only [List.mem_cons, List.mem_singleton, List.not_mem_nil, or_false] at hx
    rcases hx with h | h | h
    · exact Or.inl (h ▸ hxf)
    · exact Or.inr (Or.inl (h ▸ hxf))
    · exact Or.inr (Or.inr (h ▸ hxf))
  obtain ⟨c1, c2, c3⟩ := meas_compute_invalid k env s v hok hb
  refine ⟨is_valid_float_eq_false_iff, fun q hq => ?_, ⟨x, hx, hxf⟩, ?_, ?_, ?_⟩
  · cases hv : is_valid_float (F32.fin q)
    · rcases (is_valid_float_eq_false_iff _).mp hv with h | h
      · cases h
      · exact absurd hq (not_le.mpr h)
    · rfl
  all_goals
    unfold scheduled_meas_handler
    simp [hinit, hst, hidle, hadc, c1, c2, c3]

/-- In the reference scenario a reading whose eCO2 is NaN leaves the threshold
memory at its initial value and produces no gate or publish call. -/
theorem invalid_float_reading_discarded_witness :
    (scheduled_meas_handler sdk_consts
        (tick_ok { iaq := F32.fin (5 / 2), tvoc := F32.fin (1 / 2), eco2 := F32.nan })
        sensor_ready vendor_configured).2.2 =
      [Event.read_status, Event.read_adc_result, Event.calc, Event.start_measurement] ∧
    (scheduled_meas_handler sdk_consts
        (tick_ok { iaq := F32.fin (5 / 2), tvoc := F32.fin (1 / 2), eco2 := F32.nan })
        sensor_ready vendor_configured).1.m_thresholds = m_thresholds_init :=
  have h := invalid_float_reading_discarded sdk_consts
    (tick_ok { iaq := F32.fin (5 / 2), tvoc := F32.fin (1 / 2), eco2 := F32.nan })
    sensor_ready vendor_configured rfl rfl (by decide) rfl rfl
    ⟨F32.nan, by simp [tick_ok], Or.inl rfl⟩
  ⟨h.2.2.2.1, h.2.2.2.2.1⟩

/-- Inside the target range the 16-bit signed conversion is the integer part. -/
theorem F32.toInt16_eq_trunc (x : F32) (h : -32768 ≤ F32.trunc x ∧ F32.trunc x ≤ 32767) :
    F32.toInt16 x = F32.trunc x := by
  unfold F32.toInt16
  simp only []
  split_ifs <;> omega

/-- Inside the target range the 16-bit unsigned conversion is the integer part. -/
theorem F32.toUInt16_eq_trunc (x : F32) (h : 0 ≤ F32.trunc x ∧ F32.trunc x ≤ 65535) :
    (F32.toUInt16 x : ℤ) = F32.trunc x := by
  unfold F32.toUInt16
  omega

/-- The trace and state of a tick whose reading passes the float validity check
and fails the integer range check. -/
theorem meas_compute_out_of_range (k : SdkConsts) (env : TickEnv) (s : SensorState)
    (v : VendorState) (hok : env.calc_ret = IAQ_2ND_GEN_OK)
    (hout : F32.toInt16 env.calc_results.iaq < 0 ∨ F32.toInt16 env.calc_results.iaq > 500 ∨
            F32.toUInt16 env.calc_results.eco2 > 10000) :
    (meas_compute k env s v).2.2 = [Event.calc] ∧
    (meas_compute k env s v).2.1 = v ∧
    (meas_compute k env s v).1.m_thresholds = s.m_thresholds := by
  have h1 : ¬ (env.calc_ret = IAQ_2ND_GEN_STABILIZATION) := by rw [hok]; decide
  unfold meas_compute
  simp only [h1, hok, if_false, ne_eq, not_true_eq_false]
  split_ifs <;> simp_all

/-- C9 (as amended): on a tick whose compute step returns Ok with a reading
whose IAQ and eCO2 integer parts fit `int16_t` and `uint16_t`, if the integer
part (toward zero) of the IAQ is below 0 or above 500, or the integer part of
the eCO2 is above 10000, the only calls are the status read, the ADC read, the
compute step and the re-arm: the gate is not called, the threshold memory and
the vendor-model state are unchanged, and nothing is published.  This holds for
every such reading, in particular for those that pass the float validity
check. -/
theorem out_of_range_reading_discarded (k : SdkConsts) (env : TickEnv) (s : SensorState)
    (v : VendorState)
    (hinit : s.m_sensor_initialized = true) (hst : env.read_status_ret = 0)
    (hidle : env.status &&& k.STATUS_SEQUENCER_RUNNING_MASK = 0)
    (hadc : env.read_adc_ret = 0) (hok : env.calc_ret = IAQ_2ND_GEN_OK)
    (hfit_iaq : -32768 ≤ F32.trunc env.calc_results.iaq ∧
                F32.trunc env.calc_results.iaq ≤ 32767)
    (hfit_eco2 : 0 ≤ F32.trunc env.calc_results.eco2 ∧
                 F32.trunc env.calc_results.eco2 ≤ 65535)
    (hout : F32.trunc env.calc_results.iaq < 0 ∨ 500 < F32.trunc env.calc_results.iaq ∨
            10000 < F32.trunc env.calc_results.eco2) :
    (scheduled_meas_handler k env s v).2.2 =
      [Event.read_status, Event.read_adc_result, Event.calc, Event.start_measurement] ∧
    (scheduled_meas_handler k env s v).1.m_thresholds = s.m_thresholds ∧
    (scheduled_meas_handler k env s v).2.1 = v := by
  have e1 := F32.toInt16_eq_trunc _ hfit_iaq
  have e2 := F32.toUInt16_eq_trunc _ hfit_eco2
  have hout2 : F32.toInt16 env.calc_results.iaq < 0 ∨ F32.toInt16 env.calc_results.iaq > 500 ∨
      F32.toUInt16 env.calc_results.eco2 > 10000 := by
    rcases hout with h | h | h
    · exact Or.inl (by omega)
    · exact Or.inr (Or.inl (by omega))
    · exact Or.inr (Or.inr (by omega))
  obtain ⟨c1, c2, c3⟩ := meas_compute_out_of_range k env s v hok hout2
  refine ⟨?_, ?_, ?_⟩
  all_goals
    unfold scheduled_meas_handler
    simp [hinit, hst, hidle, hadc, c1, c2, c3]

/-- In the reference scenario the reading (-1, 0.5, 680) is discarded. -/
theorem out_of_range_reading_discarded_witness :
    (scheduled_meas_handler sdk_consts
        (tick_ok { iaq := F32.fin (-1), tvoc := F32.fin (1 / 2), eco2 := F32.fin 680 })
        sensor_ready vendor_configured).2.2 =
      [Event.read_status, Event.read_adc_result, Event.calc, Event.start_measurement] ∧
    (scheduled_meas_handler sdk_consts
        (tick_ok { iaq := F32.fin (-1), tvoc := F32.fin (1 / 2), eco2 := F32.fin 680 })
        sensor_ready vendor_configured).1.m_thresholds = m_thresholds_init :=
  have h := out_of_range_reading_discarded sdk_consts
    (tick_ok { iaq := F32.fin (-1), tvoc := F32.fin (1 / 2), eco2 := F32.fin 680 })
    sensor_ready vendor_configured rfl rfl (by decide) rfl rfl
    (by decide!) (by decide!) (by decide!)
  ⟨h.1, h.2.1⟩

/-- C9 (counterexample): the reading (500.5, 0.5, 680) is on the binary32 grid,
passes the float validity check and has an IAQ outside `[0, 500]`, yet the tick
calls the gate with it and the threshold memory takes it as baseline (here with
the vendor model not ready, so nothing is sent). -/
theorem iaq_above_500_reaches_gate :
    F32.Representable (1001 / 2) ∧ F32.Representable (1 / 2) ∧ F32.Representable 680 ∧
    is_valid_float (F32.fin (1001 / 2)) = true ∧ is_valid_float (F32.fin (1 / 2)) = true ∧
    is_valid_float (F32.fin 680) = true ∧
    ¬ ((0 : ℚ) ≤ 1001 / 2 ∧ (1001 / 2 : ℚ) ≤ 500) ∧
    (scheduled_meas_handler sdk_consts
        (tick_ok { iaq := F32.fin (1001 / 2), tvoc := F32.fin (1 / 2), eco2 := F32.fin 680 })
        sensor_ready { vendor_configured with s_vendor_model_ready := false }).2.2 =
      [Event.read_status, Event.read_adc_result, Event.calc,
       Event.gate (F32.fin (1001 / 2)) (F32.fin (1 / 2)) (F32.fin 680) true,
       Event.start_measurement] ∧
    (scheduled_meas_handler sdk_consts
        (tick_ok { iaq := F32.fin (1001 / 2), tvoc := F32.fin (1 / 2), eco2 := F32.fin 680 })
        sensor_ready { vendor_configured with s_vendor_model_ready := false }).1.m_thresholds =
      { last_iaq := F32.fin (1001 / 2), last_tvoc := F32.fin (1 / 2),
        last_eco2 := F32.fin 680, first_reading := false } := by
  decide!

/-- The narrowing conversion precedes the range check: the eCO2 value 70000
becomes 4464 in `eco2_int`, passes `eco2_int > 10000`, and the reading reaches
the gate. -/
theorem eco2_70000_reaches_gate :
    F32.Representable 70000 ∧ is_valid_float (F32.fin 70000) = true ∧
    F32.toUInt16 (F32.fin 70000) = 4464 ∧
    (scheduled_meas_handler sdk_consts
        (tick_ok { iaq := F32.fin (5 / 2), tvoc := F32.fin (1 / 2), eco2 := F32.fin 70000 })
        sensor_ready { vendor_configured with s_vendor_model_ready := false }).2.2 =
      [Event.read_status, Event.read_adc_result, Event.calc,
       Event.gate (F32.fin (5 / 2)) (F32.fin (1 / 2)) (F32.fin 70000) true,
       Event.start_measurement] := by
  decide!

/-! ## Reset of the threshold memory -/

/-- C17: whatever the threshold memory holds, after
`app_sensor_iaq_reset_thresholds` the next `should_publish_data` call returns
true and stores its reading as the baseline, also when the reading equals the
baseline held before. -/
theorem should_publish_data_after_reset (t : sensor_thresholds_t) (iaq tvoc eco2 : F32) :
    should_publish_data (app_sensor_iaq_reset_thresholds t) iaq tvoc eco2 =
      (true, { last_iaq := iaq, last_tvoc := tvoc, last_eco2 := eco2,
               first_reading := false }) ∧
    should_publish_data (app_sensor_iaq_reset_thresholds t) t.last_iaq t.last_tvoc t.last_eco2 =
      (true, { last_iaq := t.last_iaq, last_tvoc := t.last_tvoc, last_eco2 := t.last_eco2,
               first_reading := false }) := by
  constructor <;> simp [should_publish_data, app_sensor_iaq_reset_thresholds]

/-! ## Encoding in `mesh_publish_sensor_values` -/

/-- The body of `mesh_publish_sensor_values` with its locals named. -/
theorem mesh_publish_sensor_values_eq (k : SdkConsts) (st : ℕ) (v : VendorState)
    (iaq tvoc eco2 : F32) :
    mesh_publish_sensor_values k st v iaq tvoc eco2 =
      if v.m_vendor_model_handle = k.ACCESS_HANDLE_INVALID then (v, [])
      else if F32.ne iaq iaq || F32.ne tvoc tvoc || F32.ne eco2 eco2 then (v, [])
      else if !v.s_publish_configured then
        ({ v with s_warn_count := (v.s_warn_count + 1) % 2 ^ 32 }, [])
      else if v.s_appkey_handle = k.DSM_HANDLE_INVALID then (v, [])
      else if st = k.NRF_SUCCESS then
        (v, [Event.access_publish
          ((pack_payload (publish_iaq_level iaq) iaq (publish_tvoc_x100 tvoc)
              (publish_eco2_i eco2)).1.take
            (pack_payload (publish_iaq_level iaq) iaq (publish_tvoc_x100 tvoc)
              (publish_eco2_i eco2)).2)])
      else
        ({ v with s_publish_configured := false },
          [Event.access_publish
            ((pack_payload (publish_iaq_level iaq) iaq (publish_tvoc_x100 tvoc)
                (publish_eco2_i eco2)).1.take
              (pack_payload (publish_iaq_level iaq) iaq (publish_tvoc_x100 tvoc)
                (publish_eco2_i eco2)).2)]) := rfl

theorem F32.ne_self_eq_false (x : F32) (h : x ≠ F32.nan) : F32.ne x x = false := by
  cases x <;> simp_all [F32.ne]

/-- The bytes handed to `access_model_publish` when the model handle is valid,
no field is NaN, publication is configured and an AppKey is bound. -/
theorem mesh_publish_sensor_values_payload (k : SdkConsts) (st : ℕ) (v : VendorState)
    (iaq tvoc eco2 : F32)
    (hh : v.m_vendor_model_handle ≠ k.ACCESS_HANDLE_INVALID)
    (hc : v.s_publish_configured = true)
    (ha : v.s_appkey_handle ≠ k.DSM_HANDLE_INVALID)
    (hi : iaq ≠ F32.nan) (ht : tvoc ≠ F32.nan) (he : eco2 ≠ F32.nan) :
    (mesh_publish_sensor_values k st v iaq tvoc eco2).2 =
      [Event.access_publish
        [publish_iaq_level iaq,
         publish_tvoc_x100 tvoc % 256, publish_tvoc_x100 tvoc / 256,
         publish_eco2_i eco2 % 256, publish_eco2_i eco2 / 256,
         F32.toUInt8 (F32.add (F32.mul iaq (F32.fin 10)) (F32.fin (1 / 2)))]] := by
  have bt : publish_tvoc_x100 tvoc < 65536 := by
    unfold publish_tvoc_x100 F32.toUInt16; omega
  have be : publish_eco2_i eco2 < 65536 := by
    unfold publish_eco2_i F32.toUInt16; omega
  have hp := pack_payload_eq (publish_iaq_level iaq) iaq (publish_tvoc_x100 tvoc)
    (publish_eco2_i eco2) bt be
  rw [mesh_publish_sensor_values_eq, hp]
  simp only [hh, F32.ne_self_eq_false _ hi, F32.ne_self_eq_false _ ht,
    F32.ne_self_eq_false _ he, hc, ha, if_false, Bool.or_false, Bool.not_true,
    Bool.false_eq_true]
  split_ifs <;> rfl

theorem F32.round_small_ints :
    F32.round 0 = F32.fin 0 ∧ F32.round 2 = F32.fin 2 ∧ F32.round 3 = F32.fin 3 ∧
    F32.round 4 = F32.fin 4 ∧ F32.round 5 = F32.fin 5 := by decide!

/-- The level computed by `mesh_publish_sensor_values`, by exact value. -/
theorem publish_iaq_level_fin (q : ℚ) :
    publish_iaq_level (F32.fin q) =
      if q < 2 then 1 else if q < 3 then 2 else if q < 4 then 3 else if q < 5 then 4 else 5 := by
  obtain ⟨-, r2, r3, r4, r5⟩ := F32.round_small_ints
  simp only [publish_iaq_level, r2, r3, r4, r5, F32.lt, decide_eq_true_eq]

/-- C12: when `mesh_publish_sensor_values` hands a payload to
`access_model_publish` (valid handle, no NaN field, publication configured,
AppKey bound), byte 0 is 1 for `iaq < 2`, 2 for `2 <= iaq < 3`, 3 for
`3 <= iaq < 4`, 4 for `4 <= iaq < 5` and 5 otherwise (1 for minus infinity, 5
for plus infinity); it always lies in `1 .. 5`. -/
theorem published_iaq_level (k : SdkConsts) (st : ℕ) (v : VendorState)
    (iaq tvoc eco2 : F32)
    (hh : v.m_vendor_model_handle ≠ k.ACCESS_HANDLE_INVALID)
    (hc : v.s_publish_configured = true)
    (ha : v.s_appkey_handle ≠ k.DSM_HANDLE_INVALID)
    (hi : iaq ≠ F32.nan) (ht : tvoc ≠ F32.nan) (he : eco2 ≠ F32.nan) :
    ∃ p, (mesh_publish_sensor_values k st v iaq tvoc eco2).2 = [Event.access_publish p] ∧
      (∀ q : ℚ, iaq = F32.fin q →
        p.getD 0 0 =
          if q < 2 then 1 else if q < 3 then 2 else if q < 4 then 3
          else if q < 5 then 4 else 5) ∧
      (iaq = F32.inf true → p.getD 0 0 = 1) ∧
      (iaq = F32.inf false → p.getD 0 0 = 5) ∧
      1 ≤ p.getD 0 0 ∧ p.getD 0 0 ≤ 5 := by
  refine ⟨_, mesh_publish_sensor_values_payload k st v iaq tvoc eco2 hh hc ha hi ht he, ?_⟩
  simp only [List.getD_cons_zero]
  obtain ⟨-, r2, r3, r4, r5⟩ := F32.round_small_ints
  refine ⟨fun q hq => by rw [hq, publish_iaq_level_fin], fun h => ?_, fun h => ?_, ?_, ?_⟩
  · simp [h, publish_iaq_level, r2, F32.lt]
  · simp [h, publish_iaq_level, r2, r3, r4, r5, F32.lt]
  · unfold publish_iaq_level; split_ifs <;> omega
  · unfold publish_iaq_level; split_ifs <;> omega

/-- In the reference scenario the reading (4.5, 0.45, 680) is published with
level 4 in byte 0. -/
theorem published_iaq_level_witness :
    ∃ p, (mesh_publish_sensor_values sdk_consts 0 vendor_configured
            (F32.fin (9 / 2)) (F32.round (45 / 100)) (F32.fin 680)).2
          = [Event.access_publish p] ∧ p.getD 0 0 = 4 :=
  have h := published_iaq_level sdk_consts 0 vendor_configured
    (F32.fin (9 / 2)) (F32.round (45 / 100)) (F32.fin 680)
    (by decide) rfl (by decide) (by simp) (by decide!) (by simp)
  h.elim fun p hp => ⟨p, hp.1, (hp.2.1 (9 / 2) rfl).trans (by norm_num)⟩

/-! ## Codec round trip on the representative reading -/

/-- C15 (counterexample): the reading `2.3f, 0.45f, 680` is published as the
bytes `02 2D 00 A8 02 17`, so the decoded `iaq_level` is 2, not 1. -/
theorem representative_reading_level_is_2 :
    (mesh_publish_sensor_values sdk_consts 0 vendor_configured
        (F32.round (23 / 10)) (F32.round (45 / 100)) (F32.fin 680)).2 =
      [Event.access_publish [2, 45, 0, 168, 2, 23]] ∧
    (rx_decode (fun i => [2, 45, 0, 168, 2, 23].getD i 0)).1 = 2 ∧
    (rx_decode (fun i => [2, 45, 0, 168, 2, 23].getD i 0)).1 ≠ 1 := by
  decide!

/-- C15 (as amended): the reading `2.3f, 0.45f, 680` is published as the bytes
`02 2D 00 A8 02 17`; decoding them as `vendor_model_rx_cb` does gives
`iaq_level = 2`, `tvoc_x100 = 45`, `eco2 = 680` and `iaq_x10 = 23`, and the
values forwarded by `vendor_model_rx_cb`, `23 / 10.0f`, `45 / 100.0f` and `680`,
are within 0.1, 0.01 and 1 of the original reading (of the binary32 inputs and
of the decimal values 2.3, 0.45 and 680). -/
theorem representative_reading_round_trip :
    (mesh_publish_sensor_values sdk_consts 0 vendor_configured
        (F32.round (23 / 10)) (F32.round (45 / 100)) (F32.fin 680)).2 =
      [Event.access_publish [2, 45, 0, 168, 2, 23]] ∧
    rx_decode (fun i => [2, 45, 0, 168, 2, 23].getD i 0) = (2, 45, 680, 23) ∧
    (vendor_model_rx_cb 0x0001 NodeSet.init
        { opcode := 0xC1, company_id := 0x0059, src := 0x0029,
          p_data := [2, 45, 0, 168, 2, 23] }).2 =
      [Event.uart_send 0x0029 (F32.div (F32.ofInt 23) (F32.fin 10))
        (F32.div (F32.ofInt 45) (F32.fin 100)) (F32.ofInt 680)] ∧
    F32.Within (F32.div (F32.ofInt 23) (F32.fin 10)) (F32.round (23 / 10)) (1 / 10) ∧
    F32.Within (F32.div (F32.ofInt 45) (F32.fin 100)) (F32.round (45 / 100)) (1 / 100) ∧
    F32.Within (F32.ofInt 680) (F32.fin 680) 1 ∧
    F32.Within (F32.div (F32.ofInt 23) (F32.fin 10)) (F32.fin (23 / 10)) (1 / 10) ∧
    F32.Within (F32.div (F32.ofInt 45) (F32.fin 100)) (F32.fin (45 / 100)) (1 / 100) := by
  decide!

/-! ## Bus read failures -/

/-- C19 (counterexample): in the reference scenario a tick whose status read
fails makes that one call and returns; the device is not re-armed. -/
theorem status_read_failure_does_not_rearm :
    (scheduled_meas_handler sdk_consts
        { tick_ok { iaq := F32.fin (5 / 2), tvoc := F32.fin (1 / 2), eco2 := F32.fin 680 }
          with read_status_ret := -1 }
        sensor_ready vendor_configured).2.2 = [Event.read_status] ∧
    Event.start_measurement ∉
      (scheduled_meas_handler sdk_consts
        { tick_ok { iaq := F32.fin (5 / 2), tvoc := F32.fin (1 / 2), eco2 := F32.fin 680 }
          with read_status_ret := -1 }
        sensor_ready vendor_configured).2.2 := by
  decide!

/-- C19 (as amended): on an initialised sensor, a tick whose status read fails
makes no further call (no ADC read, compute step, gate, publish or re-arm) and
leaves all statics unchanged; a tick whose status read succeeds and shows the
sequencer idle but whose ADC-result read fails calls neither the compute step
nor the gate nor the publish primitive, leaves all statics unchanged and re-arms
the device as its last call. -/
theorem bus_read_failure_aborts (k : SdkConsts) (env : TickEnv) (s : SensorState)
    (v : VendorState) (hinit : s.m_sensor_initialized = true) :
    (env.read_status_ret ≠ 0 →
      scheduled_meas_handler k env s v = (s, v, [Event.read_status])) ∧
    (env.read_status_ret = 0 → env.status &&& k.STATUS_SEQUENCER_RUNNING_MASK = 0 →
      env.read_adc_ret ≠ 0 →
      scheduled_meas_handler k env s v =
        (s, v, [Event.read_status, Event.read_adc_result, Event.start_measurement])) := by
  refine ⟨fun h => ?_, fun h1 h2 h3 => ?_⟩
  · simp [scheduled_meas_handler, hinit, h]
  · simp [scheduled_meas_handler, hinit, h1, h2, h3]

/-- In the reference scenario a tick whose ADC read fails still re-arms. -/
theorem bus_read_failure_aborts_witness :
    scheduled_meas_handler sdk_consts
        { tick_ok { iaq := F32.fin (5 / 2), tvoc := F32.fin (1 / 2), eco2 := F32.fin 680 }
          with read_adc_ret := -1 }
        sensor_ready vendor_configured =
      (sensor_ready, vendor_configured,
        [Event.read_status, Event.read_adc_result, Event.start_measurement]) :=
  (bus_read_failure_aborts sdk_consts
      { tick_ok { iaq := F32.fin (5 / 2), tvoc := F32.fin (1 / 2), eco2 := F32.fin 680 }
        with read_adc_ret := -1 }
      sensor_ready vendor_configured rfl).2 rfl (by decide) (by decide)

/-! ## Baseline across ticks -/

/-- What a single gate call does to the threshold memory. -/
theorem should_publish_data_state (t : sensor_thresholds_t) (iaq tvoc eco2 : F32) :
    ((should_publish_data t iaq tvoc eco2).1 = true ∧
      (should_publish_data t iaq tvoc eco2).2 =
        { last_iaq := iaq, last_tvoc := tvoc, last_eco2 := eco2, first_reading := false }) ∨
    ((should_publish_data t iaq tvoc eco2).1 = false ∧
      (should_publish_data t iaq tvoc eco2).2 = t) := by
  unfold should_publish_data
  cases hf : t.first_reading
  · simp only [Bool.false_eq_true, if_false]
    split <;> simp [hf]
  · simp

theorem approved_readings_publish (k : SdkConsts) (st : ℕ) (v : VendorState)
    (iaq tvoc eco2 : F32) :
    approved_readings (mesh_publish_sensor_values k st v iaq tvoc eco2).2 = [] := by
  unfold approved_readings
  rw [List.filterMap_eq_nil_iff]
  intro e he
  obtain ⟨p, hp⟩ := mesh_publish_sensor_values_events k st v iaq tvoc eco2 e he
  rw [hp]

theorem approved_readings_gate_publish (k : SdkConsts) (st : ℕ) (v : VendorState)
    (iaq tvoc eco2 : F32) (b : Bool) (ready : Bool) :
    approved_readings
      ([Event.calc, Event.gate iaq tvoc eco2 b] ++
        (if ready then
          Event.mesh_publish iaq tvoc eco2 :: (mesh_publish_sensor_values k st v iaq tvoc eco2).2
         else [])) = if b then [(iaq, tvoc, eco2)] else [] := by
  have h := approved_readings_publish k st v iaq tvoc eco2
  unfold approved_readings at h ⊢
  cases b <;> cases ready <;> simp [List.filterMap_cons, h]

/-- The compute part when the reading passes both checks: the gate is called
once and, if it approves and the vendor model is ready, the publish function is
called once. -/
theorem meas_compute_gate (k : SdkConsts) (env : TickEnv) (s : SensorState)
    (v : VendorState) (hok : env.calc_ret = IAQ_2ND_GEN_OK)
    (hvalid : is_valid_float env.calc_results.iaq = true ∧
              is_valid_float env.calc_results.tvoc = true ∧
              is_valid_float env.calc_results.eco2 = true)
    (hrange : 0 ≤ F32.toInt16 env.calc_results.iaq ∧ F32.toInt16 env.calc_results.iaq ≤ 500 ∧
              F32.toUInt16 env.calc_results.eco2 ≤ 10000) :
    (meas_compute k env s v).2.2 =
      [Event.calc,
        Event.gate env.calc_results.iaq env.calc_results.tvoc env.calc_results.eco2
          (should_publish_data s.m_thresholds env.calc_results.iaq env.calc_results.tvoc
            env.calc_results.eco2).1] ++
      (if ((should_publish_data s.m_thresholds env.calc_results.iaq env.calc_results.tvoc
            env.calc_results.eco2).1 && v.s_vendor_model_ready) then
        Event.mesh_publish env.calc_results.iaq env.calc_results.tvoc env.calc_results.eco2 ::
          (mesh_publish_sensor_values k env.publish_status v env.calc_results.iaq
            env.calc_results.tvoc env.calc_results.eco2).2
       else []) ∧
    (meas_compute k env s v).1.m_thresholds =
      (should_publish_data s.m_thresholds env.calc_results.iaq env.calc_results.tvoc
        env.calc_results.eco2).2 ∧
    (meas_compute k env s v).1.m_sensor_initialized = s.m_sensor_initialized ∧
    (meas_compute k env s v).2.1 =
      (if ((should_publish_data s.m_thresholds env.calc_results.iaq env.calc_results.tvoc
            env.calc_results.eco2).1 && v.s_vendor_model_ready) then
        (mesh_publish_sensor_values k env.publish_status v env.calc_results.iaq
            env.calc_results.tvoc env.calc_results.eco2).1
       else v) := by
  have h1 : ¬ (env.calc_ret = IAQ_2ND_GEN_STABILIZATION) := by rw [hok]; decide
  obtain ⟨v1, v2, v3⟩ := hvalid
  have hr : ¬ (F32.toInt16 env.calc_results.iaq < 0 ∨ F32.toInt16 env.calc_results.iaq > 500 ∨
      F32.toUInt16 env.calc_results.eco2 > 10000) := by omega
  unfold meas_compute
  simp only [h1, hok, if_false, ne_eq, not_true_eq_false]
  cases hg : (should_publish_data s.m_thresholds env.calc_results.iaq env.calc_results.tvoc
      env.calc_results.eco2).1 <;> cases hrdy : v.s_vendor_model_ready <;>
    split_ifs <;> simp_all [mesh_vendor_model_is_ready]

/-- The compute part when the reading does not reach the gate. -/
theorem meas_compute_skip (k : SdkConsts) (env : TickEnv) (s : SensorState)
    (v : VendorState)
    (h : ¬ (env.calc_ret = IAQ_2ND_GEN_OK ∧
      (is_valid_float env.calc_results.iaq = true ∧
       is_valid_float env.calc_results.tvoc = true ∧
       is_valid_float env.calc_results.eco2 = true) ∧
      (0 ≤ F32.toInt16 env.calc_results.iaq ∧ F32.toInt16 env.calc_results.iaq ≤ 500 ∧
       F32.toUInt16 env.calc_results.eco2 ≤ 10000))) :
    (meas_compute k env s v).2.2 = [Event.calc] ∧
    (meas_compute k env s v).1.m_thresholds = s.m_thresholds ∧
    (meas_compute k env s v).1.m_sensor_initialized = s.m_sensor_initialized ∧
    (meas_compute k env s v).2.1 = v := by
  unfold meas_compute
  simp only []
  split_ifs with h1 h2 h3 h4 h5 h6 h7 h8 h9 h10
  all_goals first
    | exact ⟨rfl, rfl, rfl, rfl⟩
    | (exfalso
       apply h
       simp only [ne_eq, Decidable.not_not, Bool.or_eq_true, Bool.not_eq_true', not_or,
         Bool.not_eq_false] at *
       refine ⟨by assumption, ⟨?_, ?_, ?_⟩, by omega⟩ <;> simp_all)

/-- What one pass through the compute part does to the threshold memory. -/
theorem meas_compute_baseline (k : SdkConsts) (env : TickEnv) (s : SensorState)
    (v : VendorState) :
    (approved_readings (meas_compute k env s v).2.2 = [] ∧
      (meas_compute k env s v).1.m_thresholds = s.m_thresholds) ∨
    (∃ r : F32 × F32 × F32, approved_readings (meas_compute k env s v).2.2 = [r] ∧
      (meas_compute k env s v).1.m_thresholds =
        { last_iaq := r.1, last_tvoc := r.2.1, last_eco2 := r.2.2, first_reading := false }) := by
  by_cases h : (env.calc_ret = IAQ_2ND_GEN_OK ∧
      (is_valid_float env.calc_results.iaq = true ∧
       is_valid_float env.calc_results.tvoc = true ∧
       is_valid_float env.calc_results.eco2 = true) ∧
      (0 ≤ F32.toInt16 env.calc_results.iaq ∧ F32.toInt16 env.calc_results.iaq ≤ 500 ∧
       F32.toUInt16 env.calc_results.eco2 ≤ 10000))
  · obtain ⟨e1, e2, -, -⟩ := meas_compute_gate k env s v h.1 h.2.1 h.2.2
    rw [e1, e2]
    have ha := approved_readings_gate_publish k env.publish_status v env.calc_results.iaq
      env.calc_results.tvoc env.calc_results.eco2
    rcases should_publish_data_state s.m_thresholds env.calc_results.iaq
        env.calc_results.tvoc env.calc_results.eco2 with ⟨c, e⟩ | ⟨c, e⟩
    · right
      refine ⟨(env.calc_results.iaq, env.calc_results.tvoc, env.calc_results.eco2), ?_, e⟩
      rw [c]
      have := ha true v.s_vendor_model_ready
      simpa using this
    · left
      refine ⟨?_, e⟩
      rw [c]
      have := ha false false
      simpa using this
  · obtain ⟨e1, e2, -, -⟩ := meas_compute_skip k env s v h
    left
    rw [e1, e2]
    exact ⟨rfl, rfl⟩

theorem approved_readings_append (a b : List Event) :
    approved_readings (a ++ b) = approved_readings a ++ approved_readings b := by
  unfold approved_readings
  exact List.filterMap_append _ _ _

/-- What one tick does to the threshold memory. -/
theorem scheduled_meas_handler_baseline (k : SdkConsts) (env : TickEnv) (s : SensorState)
    (v : VendorState) :
    (approved_readings (scheduled_meas_handler k env s v).2.2 = [] ∧
      (scheduled_meas_handler k env s v).1.m_thresholds = s.m_thresholds) ∨
    (∃ r : F32 × F32 × F32, approved_readings (scheduled_meas_handler k env s v).2.2 = [r] ∧
      (scheduled_meas_handler k env s v).1.m_thresholds =
        { last_iaq := r.1, last_tvoc := r.2.1, last_eco2 := r.2.2, first_reading := false }) := by
  have hc := meas_compute_baseline k env s v
  have e : ∀ l : List Event,
      approved_readings ([Event.read_status, Event.read_adc_result] ++ l ++
        [Event.start_measurement]) = approved_readings l := by
    intro l
    rw [approved_readings_append, approved_readings_append]
    simp [approved_readings]
  unfold scheduled_meas_handler
  split_ifs
  · left; exact ⟨rfl, rfl⟩
  · left; exact ⟨rfl, rfl⟩
  · left; exact ⟨rfl, rfl⟩
  · left; exact ⟨rfl, rfl⟩
  · simp only [e]
    exact hc

/-- C20 (as amended): after every finite sequence of ticks, the threshold
memory is the one the sequence started with if the gate approved no reading
during it, and otherwise holds, with the first-reading flag cleared, the
reading most recently approved by the gate, whether or not that reading was
transmitted. -/
theorem baseline_is_last_approved (k : SdkConsts) (envs : List TickEnv) (s : SensorState)
    (v : VendorState) :
    ((approved_readings (run_ticks k envs s v).2.2.flatten).getLast? = none →
      (run_ticks k envs s v).1.m_thresholds = s.m_thresholds) ∧
    (∀ r : F32 × F32 × F32,
      (approved_readings (run_ticks k envs s v).2.2.flatten).getLast? = some r →
      (run_ticks k envs s v).1.m_thresholds =
        { last_iaq := r.1, last_tvoc := r.2.1, last_eco2 := r.2.2, first_reading := false }) := by
  induction envs generalizing s v with
  | nil =>
    refine ⟨fun _ => rfl, fun r hr => ?_⟩
    simp [run_ticks, approved_readings] at hr
  | cons env envs ih =>
    obtain ⟨ih1, ih2⟩ := ih (scheduled_meas_handler k env s v).1
      (scheduled_meas_handler k env s v).2.1
    have ht := scheduled_meas_handler_baseline k env s v
    simp only [run_ticks, List.flatten_cons, approved_readings_append]
    cases hrest : approved_readings
        (run_ticks k envs (scheduled_meas_handler k env s v).1
          (scheduled_meas_handler k env s v).2.1).2.2.flatten with
    | nil =>
      have hnone := ih1 (by rw [hrest]; rfl)
      rw [List.append_nil, hnone]
      rcases ht with ⟨a, b⟩ | ⟨r0, a, b⟩
      · rw [a, b]
        exact ⟨fun _ => rfl, fun r hr => by simp at hr⟩
      · rw [a, b]
        refine ⟨fun h => by simp at h, fun r hr => ?_⟩
        simp at hr
        rw [← hr]
    | cons x xs =>
      have hlast : ((approved_readings (scheduled_meas_handler k env s v).2.2) ++ x :: xs).getLast?
          = (x :: xs).getLast? := by
        rw [List.getLast?_append]
        cases h : (x :: xs).getLast? with
        | none => simp at h
        | some y => simp
      rw [hlast]
      rw [hrest] at ih1 ih2
      exact ⟨fun h => by simp at h, fun r hr => ih2 r hr⟩

/-- C20 (counterexample): with the vendor model not ready, one tick that
delivers the reading (2.5, 0.5, 680) has the gate approve it and makes it the
baseline, although `mesh_publish_sensor_values` and `access_model_publish` are
never called. -/
theorem unsent_reading_becomes_baseline :
    (run_ticks sdk_consts
        [tick_ok { iaq := F32.fin (5 / 2), tvoc := F32.fin (1 / 2), eco2 := F32.fin 680 }]
        sensor_ready { vendor_configured with s_vendor_model_ready := false }).2.2 =
      [[Event.read_status, Event.read_adc_result, Event.calc,
        Event.gate (F32.fin (5 / 2)) (F32.fin (1 / 2)) (F32.fin 680) true,
        Event.start_measurement]] ∧
    (run_ticks sdk_consts
        [tick_ok { iaq := F32.fin (5 / 2), tvoc := F32.fin (1 / 2), eco2 := F32.fin 680 }]
        sensor_ready { vendor_configured with s_vendor_model_ready := false }).1.m_thresholds =
      { last_iaq := F32.fin (5 / 2), last_tvoc := F32.fin (1 / 2), last_eco2 := F32.fin 680,
        first_reading := false } := by
  decide!

/-! ## Stabilisation followed by the first reading -/

/-- A stabilising tick calls the status read, the ADC read, the compute step
and the re-arm, and touches neither the threshold memory nor the vendor model. -/
theorem stabilizing_tick (k : SdkConsts) (env : TickEnv) (s : SensorState) (v : VendorState)
    (hinit : s.m_sensor_initialized = true) (h : IsStabilizingTick k env) :
    (scheduled_meas_handler k env s v).2.2 =
      [Event.read_status, Event.read_adc_result, Event.calc, Event.start_measurement] ∧
    (scheduled_meas_handler k env s v).2.1 = v ∧
    (scheduled_meas_handler k env s v).1.m_thresholds = s.m_thresholds ∧
    (scheduled_meas_handler k env s v).1.m_sensor_initialized = true := by
  obtain ⟨h1, h2, h3, h4⟩ := h
  have hskip := meas_compute_skip k env s v (by
    rw [h4]
    exact fun hc => absurd hc.1 (by decide))
  obtain ⟨c1, c2, c3, c4⟩ := hskip
  unfold scheduled_meas_handler
  simp [hinit, h1, h2, h3, c1, c2, c3, c4]

/-- C14: from an initialised sensor whose threshold memory holds no baseline,
a run of ticks that each find the device idle, read the ADC result and are
told Stabilizing by the compute step, followed by one such tick that is told Ok
with a reading passing the validity and range checks, produces for each
stabilising tick the calls status read, ADC read, compute, re-arm (no gate call,
no publish call), and for the last tick the calls status read, ADC read,
compute, one gate call that returns true, then, exactly when the vendor model
is ready, one `mesh_publish_sensor_values` call with that reading (followed by
what that function itself calls), and the re-arm. -/
theorem stabilizing_then_first_reading (k : SdkConsts) (stab : List TickEnv) (env : TickEnv)
    (s : SensorState) (v : VendorState)
    (hinit : s.m_sensor_initialized = true)
    (hfresh : s.m_thresholds.first_reading = true)
    (hstab : ∀ e ∈ stab, IsStabilizingTick k e) (hok : IsOkTick k env) :
    (run_ticks k (stab ++ [env]) s v).2.2 =
      List.replicate stab.length
        [Event.read_status, Event.read_adc_result, Event.calc, Event.start_measurement] ++
      [[Event.read_status, Event.read_adc_result, Event.calc,
        Event.gate env.calc_results.iaq env.calc_results.tvoc env.calc_results.eco2 true] ++
       (if v.s_vendor_model_ready then
          Event.mesh_publish env.calc_results.iaq env.calc_results.tvoc env.calc_results.eco2 ::
            (mesh_publish_sensor_values k env.publish_status v env.calc_results.iaq
              env.calc_results.tvoc env.calc_results.eco2).2
        else []) ++
       [Event.start_measurement]] ∧
    (∀ e ∈ (mesh_publish_sensor_values k env.publish_status v env.calc_results.iaq
              env.calc_results.tvoc env.calc_results.eco2).2,
      ∃ p, e = Event.access_publish p) := by
  refine ⟨?_, mesh_publish_sensor_values_events _ _ _ _ _ _⟩
  induction stab generalizing s with
  | nil =>
    obtain ⟨h1, h2, h3, h4, v1, v2, v3, r1, r2, r3⟩ := hok
    obtain ⟨c1, -, -, -⟩ := meas_compute_gate k env s v h4 ⟨v1, v2, v3⟩ ⟨r1, r2, r3⟩
    have hg : (should_publish_data s.m_thresholds env.calc_results.iaq env.calc_results.tvoc
        env.calc_results.eco2).1 = true := by
      simp [should_publish_data, hfresh]
    rw [hg] at c1
    simp only [List.nil_append, run_ticks, List.length_nil, List.replicate_zero]
    unfold scheduled_meas_handler
    simp [hinit, h1, h2, h3, c1]
  | cons e es ih =>
    have he := hstab e (List.mem_cons_self _ _)
    obtain ⟨t1, t2, t3, t4⟩ := stabilizing_tick k e s v hinit he
    have ih' := ih (scheduled_meas_handler k e s v).1 t4 (by rw [t3]; exact hfresh)
      (fun x hx => hstab x (List.mem_cons_of_mem _ hx))
    show (scheduled_meas_handler k e s v).2.2 ::
      (run_ticks k (es ++ [env]) (scheduled_meas_handler k e s v).1
        (scheduled_meas_handler k e s v).2.1).2.2 = _
    rw [t1, t2, ih']
    rfl

/-- Nine stabilising ticks and then the reading (2.5, 0.5, 680) in the reference
scenario: no gate or publish call during the first nine ticks, and on the tenth
one gate call, one publish call and the payload `02 32 00 A8 02 19`. -/
theorem stabilizing_then_first_reading_witness :
    (run_ticks sdk_consts
        (List.replicate 9
            { tick_ok { iaq := F32.fin 0, tvoc := F32.fin 0, eco2 := F32.fin 0 }
              with calc_ret := IAQ_2ND_GEN_STABILIZATION } ++
          [tick_ok { iaq := F32.fin (5 / 2), tvoc := F32.fin (1 / 2), eco2 := F32.fin 680 }])
        sensor_ready vendor_configured).2.2 =
      List.replicate 9
        [Event.read_status, Event.read_adc_result, Event.calc, Event.start_measurement] ++
      [[Event.read_status, Event.read_adc_result, Event.calc,
        Event.gate (F32.fin (5 / 2)) (F32.fin (1 / 2)) (F32.fin 680) true,
        Event.mesh_publish (F32.fin (5 / 2)) (F32.fin (1 / 2)) (F32.fin 680),
        Event.access_publish [2, 50, 0, 168, 2, 25],
        Event.start_measurement]] :=
  ((stabilizing_then_first_reading sdk_consts
      (List.replicate 9
        { tick_ok { iaq := F32.fin 0, tvoc := F32.fin 0, eco2 := F32.fin 0 }
          with calc_ret := IAQ_2ND_GEN_STABILIZATION })
      (tick_ok { iaq := F32.fin (5 / 2), tvoc := F32.fin (1 / 2), eco2 := F32.fin 680 })
      sensor_ready vendor_configured rfl rfl
      (fun e he => by
        rw [List.eq_of_mem_replicate he]
        exact ⟨rfl, by decide, rfl, rfl⟩)
      ⟨rfl, by decide, rfl, rfl, by decide!, by decide!, by decide!, by decide!, by decide!,
        by decide!⟩).1).trans (by decide!)

/-! ## Node-set invariant -/

theorem NodeSet.tracked_length (ns : NodeSet) (h : ns.WellFormed) :
    ns.tracked.length = ns.s_received_node_count := by
  obtain ⟨h1, h2, -⟩ := h
  simp [NodeSet.tracked, List.length_take]
  omega

/-- One call of `is_first_reception_from_node` on a well-formed node set. -/
theorem is_first_reception_from_node_step (ns : NodeSet) (x : ℕ) (h : ns.WellFormed) :
    (is_first_reception_from_node ns x).2.WellFormed ∧
    ((is_first_reception_from_node ns x).1 = false ↔ x ∈ ns.tracked) ∧
    (is_first_reception_from_node ns x).2.tracked =
      (if x ∈ ns.tracked ∨ ns.s_received_node_count = 10 then ns.tracked
       else ns.tracked ++ [x]) := by
  obtain ⟨h1, h2, h3⟩ := h
  have hs := node_seen_iff ns x (by omega)
  by_cases hx : x ∈ ns.tracked
  · have e : is_first_reception_from_node ns x = (false, ns) := by
      simp [is_first_reception_from_node, hs.mpr hx]
    rw [e]
    exact ⟨⟨h1, h2, h3⟩, by simp [hx], by simp [hx]⟩
  · have hn : node_seen ns x = false := by
      cases hh : node_seen ns x
      · rfl
      · exact absurd (hs.mp hh) hx
    by_cases hc : ns.s_received_node_count = 10
    · have e : is_first_reception_from_node ns x = (true, ns) := by
        simp [is_first_reception_from_node, hn, MAX_TRACKED_NODES, hc]
      rw [e]
      exact ⟨⟨h1, h2, h3⟩, by simp [hx], by simp [hc]⟩
    · have hlt : ns.s_received_node_count < 10 := by omega
      have e : is_first_reception_from_node ns x =
          (true, { s_received_nodes := ns.s_received_nodes.set ns.s_received_node_count x,
                   s_received_node_count := ns.s_received_node_count + 1 }) := by
        simp [is_first_reception_from_node, hn, MAX_TRACKED_NODES, hlt]
      have et : (NodeSet.mk (ns.s_received_nodes.set ns.s_received_node_count x)
          (ns.s_received_node_count + 1)).tracked = ns.tracked ++ [x] :=
        take_succ_set _ _ _ (by omega)
      rw [e]
      refine ⟨⟨by simp [h1], by simp; omega, ?_⟩, by simp [hx], by simp [hx, hc, et]⟩
      rw [et]
      exact List.nodup_append.mpr ⟨h3, List.nodup_singleton x, by
        intro a ha hb
        simp at hb
        exact hx (hb ▸ ha)⟩

theorem run_nodes_append (ns : NodeSet) (xs ys : List ℕ) :
    run_nodes ns (xs ++ ys) = run_nodes (run_nodes ns xs) ys := by
  induction xs generalizing ns with
  | nil => rfl
  | cons x xs ih => exact ih _

theorem run_nodes_wellFormed (ns : NodeSet) (xs : List ℕ) (h : ns.WellFormed) :
    (run_nodes ns xs).WellFormed := by
  induction xs generalizing ns with
  | nil => exact h
  | cons x xs ih => exact ih _ (is_first_reception_from_node_step ns x h).1

/-- Later calls keep the tracked entries in place as a prefix. -/
theorem run_nodes_prefix (ns : NodeSet) (xs : List ℕ) (h : ns.WellFormed) :
    ns.tracked <+: (run_nodes ns xs).tracked := by
  induction xs generalizing ns with
  | nil => exact List.prefix_refl _
  | cons x xs ih =>
    obtain ⟨w, -, t⟩ := is_first_reception_from_node_step ns x h
    refine List.IsPrefix.trans ?_ (ih _ w)
    rw [t]
    split_ifs
    · exact List.prefix_refl _
    · exact List.prefix_append _ _

/-- The tracked entries after a run, in closed form. -/
theorem run_nodes_tracked (ns : NodeSet) (xs : List ℕ) (h : ns.WellFormed) :
    (run_nodes ns xs).tracked =
      (ns.tracked ++ (first_appearances xs).filter (fun y => decide (y ∉ ns.tracked))).take 10 := by
  induction xs generalizing ns with
  | nil =>
    have hl := NodeSet.tracked_length ns h
    simp only [run_nodes, first_appearances, List.filter_nil, List.append_nil]
    exact (List.take_of_length_le (by rw [hl]; exact h.2.1)).symm
  | cons x xs ih =>
    obtain ⟨w, -, t⟩ := is_first_reception_from_node_step ns x h
    have hl := NodeSet.tracked_length ns h
    show (run_nodes (is_first_reception_from_node ns x).2 xs).tracked = _
    rw [ih _ w, t]
    by_cases hx : x ∈ ns.tracked
    · simp only [hx, true_or, if_true, first_appearances, List.filter_cons, not_true_eq_false,
        decide_False, Bool.false_eq_true, if_false, List.filter_filter]
      congr 2
      apply List.filter_congr
      intro y _
      by_cases hy : y ∈ ns.tracked
      · simp [hy]
      · have : y ≠ x := fun e => hy (e ▸ hx)
        simp [hy, this]
    · by_cases hc : ns.s_received_node_count = 10
      · simp only [hc, or_true, if_true]
        have hl10 : ns.tracked.length = 10 := by rw [hl, hc]
        rw [List.take_left' hl10, List.take_left' hl10]
      · simp only [hx, hc, or_self, if_false, first_appearances, List.filter_cons,
          not_false_eq_true, decide_True, if_true, List.filter_filter, List.append_assoc,
          List.singleton_append]
        congr 3
        apply List.filter_congr
        intro y _
        by_cases hy : y ∈ ns.tracked <;> by_cases hyx : y = x <;> simp [hy, hyx]

/-- The entries `41, 42, 41, 43, 42` first appear in the order `41, 42, 43`, and
that is what the tracker holds after these five calls. -/
theorem first_appearances_sample :
    first_appearances [41, 42, 41, 43, 42] = [41, 42, 43] ∧
    (run_nodes NodeSet.init [41, 42, 41, 43, 42]).tracked = [41, 42, 43] := by
  decide

theorem NodeSet.init_wellFormed : NodeSet.init.WellFormed := by
  refine ⟨by decide, by decide, ?_⟩
  simp [NodeSet.tracked, NodeSet.init]

/-- C18: after any sequence of `is_first_reception_from_node` calls from the
empty node set, the count is at most 10, the tracked entries are pairwise
distinct and are the first 10 distinct ids of the sequence in order of first
appearance; whatever calls follow, the entries tracked so far stay in place as
a prefix and each of them is classified as repeat. -/
theorem node_set_invariant (ids : List ℕ) :
    (run_nodes NodeSet.init ids).s_received_node_count ≤ 10 ∧
    (run_nodes NodeSet.init ids).tracked.length = (run_nodes NodeSet.init ids).s_received_node_count ∧
    (run_nodes NodeSet.init ids).tracked.Nodup ∧
    (run_nodes NodeSet.init ids).tracked = (first_appearances ids).take 10 ∧
    (∀ more : List ℕ,
      (run_nodes NodeSet.init ids).tracked <+: (run_nodes NodeSet.init (ids ++ more)).tracked) ∧
    (∀ x ∈ (run_nodes NodeSet.init ids).tracked, ∀ more : List ℕ,
      (is_first_reception_from_node (run_nodes NodeSet.init (ids ++ more)) x).1 = false) := by
  have w := run_nodes_wellFormed NodeSet.init ids NodeSet.init_wellFormed
  have hp : ∀ more : List ℕ,
      (run_nodes NodeSet.init ids).tracked <+: (run_nodes NodeSet.init (ids ++ more)).tracked := by
    intro more
    rw [run_nodes_append]
    exact run_nodes_prefix _ more w
  refine ⟨w.2.1, NodeSet.tracked_length _ w, w.2.2, ?_, hp, fun x hx more => ?_⟩
  · rw [run_nodes_tracked _ _ NodeSet.init_wellFormed]
    have e : NodeSet.init.tracked = [] := by simp [NodeSet.tracked, NodeSet.init]
    simp [e]
  · have w2 := run_nodes_wellFormed NodeSet.init (ids ++ more) NodeSet.init_wellFormed
    exact (is_first_reception_from_node_step _ x w2).2.1.mpr ((hp more).mem hx)

/-! ## Rounding to binary32 -/

namespace F32Model

theorem log2Fuel_spec : ∀ (fuel n : ℕ), n ≤ fuel → 1 ≤ n →
    2 ^ log2Fuel fuel n ≤ n ∧ n < 2 ^ (log2Fuel fuel n + 1)
  | 0, n, h1, h2 => by omega
  | fuel + 1, n, h1, h2 => by
    unfold log2Fuel
    split_ifs with h
    · have ih := log2Fuel_spec fuel (n / 2) (by omega) (by omega)
      obtain ⟨a, b⟩ := ih
      rw [pow_succ] at b ⊢
      rw [pow_succ]
      constructor <;> omega
    · simp; omega

theorem roundHalfEven_bounds (q : ℚ) :
    |(roundHalfEven q : ℚ) - q| ≤ 1 / 2 ∧
    (∀ m : ℤ, (m : ℚ) ≤ q → m ≤ roundHalfEven q) ∧
    (∀ m : ℤ, q ≤ (m : ℚ) → roundHalfEven q ≤ m) := by
  have hf1 : (⌊q⌋ : ℚ) ≤ q := Int.floor_le q
  have hf2 : q < (⌊q⌋ : ℚ) + 1 := Int.lt_floor_add_one q
  unfold roundHalfEven
  simp only []
  refine ⟨?_, ?_, ?_⟩
  · split_ifs <;> rw [abs_le] <;> constructor <;> push_cast <;> linarith
  · intro m hm
    have : m ≤ ⌊q⌋ := Int.le_floor.mpr hm
    split_ifs <;> omega
  · intro m hm
    split_ifs with h1 h2 h3
    · exact_mod_cast (Int.floor_le q).trans hm |> fun h => Int.cast_le.mp h
    · have : (⌊q⌋ : ℚ) < m := by linarith
      have : ⌊q⌋ < m := by exact_mod_cast this
      omega
    · exact Int.cast_le.mp ((Int.floor_le q).trans hm)
    · have hr : q - ⌊q⌋ = 1 / 2 := le_antisymm (not_lt.mp h2) (not_lt.mp h1)
      have : (⌊q⌋ : ℚ) < m := by linarith
      have : ⌊q⌋ < m := by exact_mod_cast this
      omega


theorem pow2_natCast (k : ℕ) : pow2 (k : ℤ) = (2 : ℚ) ^ k := by
  unfold pow2
  simp

theorem pow2_neg_natCast (j : ℕ) : pow2 (-(j : ℤ)) = 1 / (2 : ℚ) ^ j := by
  unfold pow2
  by_cases hj : j = 0
  · subst hj; simp
  · have : ¬ (0 : ℤ) ≤ -(j : ℤ) := by omega
    simp [this]

theorem ilog2_le (q : ℚ) (E : ℕ) (h0 : 0 < q) (hq : q < 2 ^ (E + 1)) : ilog2 q ≤ E := by
  have hnum : 0 < q.num := Rat.num_pos.mpr h0
  have hden : 0 < q.den := q.den_pos
  have hn1 : 1 ≤ q.num.natAbs := by omega
  obtain ⟨a1, a2⟩ := log2Fuel_spec q.num.natAbs q.num.natAbs le_rfl hn1
  obtain ⟨b1, b2⟩ := log2Fuel_spec q.den q.den le_rfl hden
  -- n < 2^(E+1) * d
  have hlt : q.num.natAbs < 2 ^ (E + 1) * q.den := by
    have e1 : (q.num : ℚ) / q.den = q := Rat.num_div_den q
    have hd' : (0 : ℚ) < q.den := by exact_mod_cast hden
    have : (q.num : ℚ) < 2 ^ (E + 1) * q.den := by
      rw [← e1] at hq
      exact (div_lt_iff₀ hd').mp hq
    have e2 : (q.num : ℚ) = (q.num.natAbs : ℚ) := by
      rw [Nat.cast_natAbs, abs_of_pos hnum]
    rw [e2] at this
    exact_mod_cast this
  unfold ilog2
  simp only []
  split_ifs with hc
  · -- pow2 k ≤ |q|
    by_contra hk
    push_neg at hk
    set k : ℤ := (log2Fuel q.num.natAbs q.num.natAbs : ℤ) - (log2Fuel q.den q.den : ℤ) with hkdef
    have hk0 : 0 ≤ k := by omega
    obtain ⟨kn, hkn⟩ := Int.eq_ofNat_of_zero_le hk0
    rw [hkn, pow2_natCast, abs_of_pos h0] at hc
    have : (2 : ℚ) ^ (E + 1) ≤ 2 ^ kn := by
      apply pow_le_pow_right₀ (by norm_num)
      omega
    linarith
  · by_contra hk
    push_neg at hk
    -- L n ≥ L d + E + 2
    have hL : log2Fuel q.den q.den + E + 2 ≤ log2Fuel q.num.natAbs q.num.natAbs := by omega
    have h1 : 2 ^ (log2Fuel q.den q.den + E + 2) ≤ q.num.natAbs :=
      le_trans (Nat.pow_le_pow_right (by norm_num) hL) a1
    have h2 : 2 ^ (log2Fuel q.den q.den + E + 2) = 2 ^ (E + 1) * 2 ^ (log2Fuel q.den q.den + 1) := by
      rw [← pow_add]; congr 1; omega
    have h3 : 2 ^ (E + 1) * q.den < 2 ^ (E + 1) * 2 ^ (log2Fuel q.den q.den + 1) :=
      Nat.mul_lt_mul_of_pos_left b2 (by positivity)
    omega

end F32Model

/-- Rounding a non-negative rational below `2 ^ (24 - s)`: the result is finite,
within half a grid step `2 ^ (-s)` of the argument, and does not cross any
multiple of `2 ^ (-s)`. -/
theorem F32.round_nonneg_grid (s : ℕ) (hs : s ≤ 23) (q : ℚ) (h0 : 0 ≤ q)
    (hq : q < 2 ^ (24 - s)) :
    ∃ r : ℚ, F32.round q = F32.fin r ∧ |r - q| ≤ 1 / 2 ^ (s + 1) ∧
      ∀ m : ℤ, ((m : ℚ) / 2 ^ s ≤ q → (m : ℚ) / 2 ^ s ≤ r) ∧
               (q ≤ (m : ℚ) / 2 ^ s → r ≤ (m : ℚ) / 2 ^ s) := by
  rcases eq_or_lt_of_le h0 with h | hpos
  · subst h
    refine ⟨0, by simp [F32.round], by simp, fun m => ⟨id, id⟩⟩
  · have hil : F32Model.ilog2 q ≤ ((23 - s : ℕ) : ℤ) :=
      F32Model.ilog2_le q (23 - s) hpos (by
        have : 23 - s + 1 = 24 - s := by omega
        rw [this]; exact hq)
    obtain ⟨j, hj, hsj⟩ : ∃ j : ℕ, max (F32Model.ilog2 q) (-126) - 23 = -(j : ℤ) ∧ s ≤ j := by
      refine ⟨(23 - max (F32Model.ilog2 q) (-126)).toNat, ?_, ?_⟩
      · have : max (F32Model.ilog2 q) (-126) ≤ 23 := by
          apply max_le <;> omega
        omega
      · have : max (F32Model.ilog2 q) (-126) ≤ ((23 - s : ℕ) : ℤ) := by
          apply max_le hil; omega
        omega
    have hpj : (0 : ℚ) < 2 ^ j := by positivity
    have hps : (0 : ℚ) < 2 ^ s := by positivity
    obtain ⟨c, hc⟩ : ∃ c : ℕ, j = s + c := ⟨j - s, by omega⟩
    have hjs : (2 : ℚ) ^ j = 2 ^ s * 2 ^ c := by rw [hc, pow_add]
    obtain ⟨b1, b2, b3⟩ := F32Model.roundHalfEven_bounds (q / (1 / 2 ^ j))
    set n : ℤ := F32Model.roundHalfEven (q / (1 / 2 ^ j)) with hn
    have hx : q / (1 / 2 ^ j) = q * 2 ^ j := by field_simp
    rw [hx] at b1 b2 b3
    -- error bound
    have herr : |(n : ℚ) * (1 / 2 ^ j) - q| ≤ 1 / 2 ^ (s + 1) := by
      have e1 : (n : ℚ) * (1 / 2 ^ j) - q = ((n : ℚ) - q * 2 ^ j) / 2 ^ j := by
        field_simp; ring
      rw [e1, abs_div, abs_of_pos hpj]
      have : (1 : ℚ) / 2 ^ (s + 1) = (1 / 2) / 2 ^ s := by
        rw [pow_succ]; field_simp; ring
      rw [this]
      have h2 : |(n : ℚ) - q * 2 ^ j| / 2 ^ j ≤ (1 / 2) / 2 ^ j :=
        div_le_div_of_nonneg_right b1 hpj.le
      have h3 : (1 / 2 : ℚ) / 2 ^ j ≤ (1 / 2) / 2 ^ s := by
        apply div_le_div_of_nonneg_left (by norm_num) hps
        rw [hjs]
        have : (1 : ℚ) ≤ 2 ^ c := one_le_pow₀ (by norm_num)
        nlinarith
      exact h2.trans h3
    -- no overflow
    have hsmall : ¬ F32Model.pow2 128 ≤ (n : ℚ) * (1 / 2 ^ j) := by
      have hp : F32Model.pow2 128 = 2 ^ 128 := by
        have := F32Model.pow2_natCast 128
        simpa using this
      rw [hp]
      have hq24 : q < 2 ^ 24 := lt_of_lt_of_le hq (pow_le_pow_right₀ (by norm_num) (by omega))
      have h1 : (n : ℚ) * (1 / 2 ^ j) ≤ q + 1 / 2 ^ (s + 1) := by
        have := (abs_le.mp herr).2; linarith
      have h2 : (1 : ℚ) / 2 ^ (s + 1) ≤ 1 := by
        rw [div_le_one (by positivity)]
        exact one_le_pow₀ (by norm_num)
      have : (2 : ℚ) ^ 24 + 1 < 2 ^ 128 := by norm_num
      intro hcon
      linarith
    refine ⟨(n : ℚ) * (1 / 2 ^ j), ?_, herr, fun m => ⟨fun hm => ?_, fun hm => ?_⟩⟩
    · unfold F32.round
      rw [if_neg hpos.ne']
      simp only []
      rw [hj, F32Model.pow2_neg_natCast, abs_of_pos hpos, ← hn, if_neg hsmall,
        if_neg (not_lt.mpr h0)]
    · -- m / 2^s ≤ q → m * 2^c ≤ q * 2^j → m * 2^c ≤ n
      have h1 : ((m * 2 ^ c : ℤ) : ℚ) ≤ q * 2 ^ j := by
        push_cast
        rw [hjs]
        have := (div_le_iff₀ hps).mp hm
        have hc0 : (0 : ℚ) < 2 ^ c := by positivity
        nlinarith
      have h2 := b2 _ h1
      have h3 : ((m * 2 ^ c : ℤ) : ℚ) ≤ (n : ℚ) := by exact_mod_cast h2
      rw [div_le_iff₀ hps]
      push_cast at h3
      have e : (n : ℚ) * (1 / 2 ^ j) * 2 ^ s = (n : ℚ) / 2 ^ c := by
        rw [hjs]; field_simp; ring
      rw [e, le_div_iff₀ (by positivity)]
      exact h3
    · have h1 : q * 2 ^ j ≤ ((m * 2 ^ c : ℤ) : ℚ) := by
        push_cast
        rw [hjs]
        have := (le_div_iff₀ hps).mp hm
        have hc0 : (0 : ℚ) < 2 ^ c := by positivity
        nlinarith
      have h2 := b3 _ h1
      have h3 : (n : ℚ) ≤ ((m * 2 ^ c : ℤ) : ℚ) := by exact_mod_cast h2
      rw [le_div_iff₀ hps]
      push_cast at h3
      have e : (n : ℚ) * (1 / 2 ^ j) * 2 ^ s = (n : ℚ) / 2 ^ c := by
        rw [hjs]; field_simp; ring
      rw [e, div_le_iff₀ (by positivity)]
      exact h3

theorem F32.trunc_fin_nonneg (r : ℚ) (h : 0 ≤ r) : F32.trunc (F32.fin r) = ⌊r⌋ := by
  simp [F32.trunc, h]

/-- Adding `0.5f` to a value in `[0, N]` with `N ≤ 65535` and taking the integer
part: the result lies in `0 .. N` and is within `1/2 + 2^-9` of the value. -/
theorem F32.add_half_trunc (N : ℕ) (hN : N ≤ 65535) (r1 : ℚ) (h0 : 0 ≤ r1) (h1 : r1 ≤ N) :
    0 ≤ F32.trunc (F32.add (F32.fin r1) (F32.fin (1 / 2))) ∧
    F32.trunc (F32.add (F32.fin r1) (F32.fin (1 / 2))) ≤ N ∧
    |(F32.trunc (F32.add (F32.fin r1) (F32.fin (1 / 2))) : ℚ) - r1| ≤ 1 / 2 + 1 / 512 := by
  have hN' : (N : ℚ) ≤ 65535 := by exact_mod_cast hN
  obtain ⟨r2, e, herr, hgrid⟩ := F32.round_nonneg_grid 8 (by norm_num) (r1 + 1 / 2)
    (by linarith) (by norm_num; linarith)
  have hlo : (1 / 2 : ℚ) ≤ r2 := by
    have := (hgrid 128).1 (by norm_num; linarith)
    norm_num at this; linarith
  have hhi : r2 ≤ N + 1 / 2 := by
    have := (hgrid (256 * N + 128)).2 (by push_cast; linarith)
    push_cast at this; linarith
  have hadd : F32.add (F32.fin r1) (F32.fin (1 / 2)) = F32.fin r2 := by
    simp only [F32.add]; exact e
  rw [hadd, F32.trunc_fin_nonneg r2 (by linarith)]
  have hf0 : 0 ≤ ⌊r2⌋ := Int.floor_nonneg.mpr (by linarith)
  have hf1 : ⌊r2⌋ ≤ N := by
    have : ⌊r2⌋ < (N : ℤ) + 1 := Int.floor_lt.mpr (by push_cast; linarith)
    omega
  have hfl1 : (⌊r2⌋ : ℚ) ≤ r2 := Int.floor_le r2
  have hfl2 : r2 < (⌊r2⌋ : ℚ) + 1 := Int.lt_floor_add_one r2
  have herr' := abs_le.mp herr
  norm_num at herr'
  refine ⟨hf0, hf1, ?_⟩
  rw [abs_le]
  constructor <;> linarith [herr'.1, herr'.2]

/-- Adding `0.5f` to a value in `[0, 65535]` and converting to `uint16_t`: the
conversion does not wrap and the result is within `1/2 + 2^-9` of the value. -/
theorem F32.add_half_toUInt16 (r1 : ℚ) (h0 : 0 ≤ r1) (h1 : r1 ≤ 65535) :
    (F32.toUInt16 (F32.add (F32.fin r1) (F32.fin (1 / 2))) : ℤ) =
      F32.trunc (F32.add (F32.fin r1) (F32.fin (1 / 2))) ∧
    F32.toUInt16 (F32.add (F32.fin r1) (F32.fin (1 / 2))) ≤ 65535 ∧
    |(F32.toUInt16 (F32.add (F32.fin r1) (F32.fin (1 / 2))) : ℚ) - r1| ≤ 1 / 2 + 1 / 512 := by
  obtain ⟨a, b, c⟩ := F32.add_half_trunc 65535 le_rfl r1 h0 (by exact_mod_cast h1)
  have hcast : (F32.toUInt16 (F32.add (F32.fin r1) (F32.fin (1 / 2))) : ℤ) =
      F32.trunc (F32.add (F32.fin r1) (F32.fin (1 / 2))) := by
    unfold F32.toUInt16
    omega
  have hq : (F32.toUInt16 (F32.add (F32.fin r1) (F32.fin (1 / 2))) : ℚ) =
      (F32.trunc (F32.add (F32.fin r1) (F32.fin (1 / 2))) : ℚ) := by exact_mod_cast hcast
  refine ⟨hcast, by omega, ?_⟩
  rw [hq]; exact c

/-- Adding `0.5f` to a value in `[0, 255]` and converting to `uint8_t`: the
conversion does not wrap and the result is within `1/2 + 2^-9` of the value. -/
theorem F32.add_half_toUInt8 (r1 : ℚ) (h0 : 0 ≤ r1) (h1 : r1 ≤ 255) :
    (F32.toUInt8 (F32.add (F32.fin r1) (F32.fin (1 / 2))) : ℤ) =
      F32.trunc (F32.add (F32.fin r1) (F32.fin (1 / 2))) ∧
    F32.toUInt8 (F32.add (F32.fin r1) (F32.fin (1 / 2))) ≤ 255 ∧
    |(F32.toUInt8 (F32.add (F32.fin r1) (F32.fin (1 / 2))) : ℚ) - r1| ≤ 1 / 2 + 1 / 512 := by
  obtain ⟨a, b, c⟩ := F32.add_half_trunc 255 (by norm_num) r1 h0 (by exact_mod_cast h1)
  have hcast : (F32.toUInt8 (F32.add (F32.fin r1) (F32.fin (1 / 2))) : ℤ) =
      F32.trunc (F32.add (F32.fin r1) (F32.fin (1 / 2))) := by
    unfold F32.toUInt8
    omega
  have hq : (F32.toUInt8 (F32.add (F32.fin r1) (F32.fin (1 / 2))) : ℚ) =
      (F32.trunc (F32.add (F32.fin r1) (F32.fin (1 / 2))) : ℚ) := by exact_mod_cast hcast
  refine ⟨hcast, by omega, ?_⟩
  rw [hq]; exact c

/-! ## Numerical encoding of TVOC, eCO2 and the IAQ byte -/

theorem F32.round_655_35 : F32.round (65535 / 100) = F32.fin (5368627 / 8192) := by decide!

theorem F32.round_65535 : F32.round 65535 = F32.fin 65535 := by decide!

theorem F32.round_half : F32.round (5 / 10) = F32.fin (1 / 2) := by decide!

theorem F32.round_zero : F32.round 0 = F32.fin 0 := by decide!

theorem F32.clampQ_bounds (x : F32) (lo hi : ℚ) (h : lo ≤ hi) :
    lo ≤ F32.clampQ x lo hi ∧ F32.clampQ x lo hi ≤ hi := by
  unfold F32.clampQ
  cases x with
  | nan => exact ⟨le_rfl, h⟩
  | inf b => cases b <;> simp [h]
  | fin q => exact ⟨le_max_left _ _, max_le h (min_le_right _ _)⟩

/-- The two clamping statements on `tvoc`, by exact value. -/
theorem publish_tvoc_clamped_eq (tvoc : F32) (h : tvoc ≠ F32.nan) :
    publish_tvoc_clamped tvoc = F32.fin (F32.clampQ tvoc 0 (5368627 / 8192)) := by
  unfold publish_tvoc_clamped F32.clampQ
  rw [F32.round_zero, F32.round_655_35]
  cases tvoc with
  | nan => exact absurd rfl h
  | inf b =>
    cases b
    · simp [F32.lt, F32.gt]
    · simp [F32.lt, F32.gt]; norm_num
  | fin q =>
    simp only [F32.lt, F32.gt, decide_eq_true_eq]
    by_cases h1 : q < 0
    · have h2 : ¬ ((5368627 / 8192 : ℚ) < 0) := by norm_num
      have h3 : min q (5368627 / 8192) = q := min_eq_left (by linarith)
      simp [h1, h2, h3, max_eq_left h1.le]
    · push_neg at h1
      by_cases h2 : (5368627 / 8192 : ℚ) < q
      · simp [not_lt.mpr h1, h2, min_eq_right h2.le]
        norm_num
      · push_neg at h2
        simp [not_lt.mpr h1, not_lt.mpr h2, min_eq_left h2, max_eq_right h1]

/-- The two clamping statements on `eco2`, by exact value. -/
theorem publish_eco2_clamped_eq (eco2 : F32) (h : eco2 ≠ F32.nan) :
    publish_eco2_clamped eco2 = F32.fin (F32.clampQ eco2 0 65535) := by
  unfold publish_eco2_clamped F32.clampQ
  rw [F32.round_zero, F32.round_65535]
  cases eco2 with
  | nan => exact absurd rfl h
  | inf b => cases b <;> simp [F32.lt, F32.gt]
  | fin q =>
    simp only [F32.lt, F32.gt, decide_eq_true_eq]
    by_cases h1 : q < 0
    · have h2 : ¬ ((65535 : ℚ) < 0) := by norm_num
      have h3 : min q 65535 = q := min_eq_left (by linarith)
      simp [h1, h2, h3, max_eq_left h1.le]
    · push_neg at h1
      by_cases h2 : (65535 : ℚ) < q
      · simp [not_lt.mpr h1, h2, min_eq_right h2.le]
      · push_neg at h2
        simp [not_lt.mpr h1, not_lt.mpr h2, min_eq_left h2, max_eq_right h1]

/-- The encoded eCO2: no wrap-around, and within `1/2 + 2^-9` of the clamped
value. -/
theorem publish_eco2_i_bounds (eco2 : F32) (h : eco2 ≠ F32.nan) :
    (publish_eco2_i eco2 : ℤ) =
      F32.trunc (F32.add (publish_eco2_clamped eco2) (F32.fin (1 / 2))) ∧
    publish_eco2_i eco2 ≤ 65535 ∧
    |(publish_eco2_i eco2 : ℚ) - F32.clampQ eco2 0 65535| ≤ 1 / 2 + 1 / 512 := by
  obtain ⟨c0, c1⟩ := F32.clampQ_bounds eco2 0 65535 (by norm_num)
  unfold publish_eco2_i
  rw [publish_eco2_clamped_eq eco2 h, F32.round_half]
  exact F32.add_half_toUInt16 _ c0 c1

/-- The encoded TVOC: no wrap-around, and within `1/2 + 2^-8` of one hundred
times the clamped value. -/
theorem publish_tvoc_x100_bounds (tvoc : F32) (h : tvoc ≠ F32.nan) :
    (publish_tvoc_x100 tvoc : ℤ) =
      F32.trunc (F32.add (F32.mul (publish_tvoc_clamped tvoc) (F32.fin 100))
        (F32.fin (1 / 2))) ∧
    publish_tvoc_x100 tvoc ≤ 65535 ∧
    |(publish_tvoc_x100 tvoc : ℚ) - 100 * F32.clampQ tvoc 0 (5368627 / 8192)|
      ≤ 1 / 2 + 1 / 256 := by
  obtain ⟨c0, c1⟩ := F32.clampQ_bounds tvoc 0 (5368627 / 8192) (by norm_num)
  set c := F32.clampQ tvoc 0 (5368627 / 8192) with hc
  obtain ⟨r1, e, herr, hgrid⟩ := F32.round_nonneg_grid 8 (by norm_num) (c * 100)
    (by linarith) (by norm_num; linarith)
  have hlo : 0 ≤ r1 := by
    have := (hgrid 0).1 (by norm_num; linarith)
    norm_num at this; exact this
  have hhi : r1 ≤ 65535 := by
    have := (hgrid 16776960).2 (by norm_num; linarith)
    norm_num at this; exact this
  have hmul : F32.mul (F32.fin c) (F32.fin 100) = F32.fin r1 := by
    simp only [F32.mul]; exact e
  obtain ⟨a1, a2, a3⟩ := F32.add_half_toUInt16 r1 hlo hhi
  unfold publish_tvoc_x100
  rw [publish_tvoc_clamped_eq tvoc h, F32.round_half, F32.round_100, ← hc, hmul]
  refine ⟨a1, a2, ?_⟩
  have h1 := abs_le.mp a3
  have h2 := abs_le.mp herr
  norm_num at h2
  rw [abs_le]
  constructor <;> linarith [h1.1, h1.2, h2.1, h2.2]

/-- Byte 5 for an IAQ value in `[0, 25.5]`: the conversion to `uint8_t` does not
wrap and the byte is within `1/2 + 2^-8` of ten times the value. -/
theorem iaq_x10_bounds (q : ℚ) (h0 : 0 ≤ q) (h1 : q ≤ 51 / 2) :
    (F32.toUInt8 (F32.add (F32.mul (F32.fin q) (F32.fin 10)) (F32.fin (1 / 2))) : ℤ) =
      F32.trunc (F32.add (F32.mul (F32.fin q) (F32.fin 10)) (F32.fin (1 / 2))) ∧
    F32.toUInt8 (F32.add (F32.mul (F32.fin q) (F32.fin 10)) (F32.fin (1 / 2))) ≤ 255 ∧
    |(F32.toUInt8 (F32.add (F32.mul (F32.fin q) (F32.fin 10)) (F32.fin (1 / 2))) : ℚ) - 10 * q|
      ≤ 1 / 2 + 1 / 256 := by
  obtain ⟨r1, e, herr, hgrid⟩ := F32.round_nonneg_grid 8 (by norm_num) (q * 10)
    (by linarith) (by norm_num; linarith)
  have hlo : 0 ≤ r1 := by
    have := (hgrid 0).1 (by norm_num; linarith)
    norm_num at this; exact this
  have hhi : r1 ≤ 255 := by
    have := (hgrid 65280).2 (by norm_num; linarith)
    norm_num at this; exact this
  have hmul : F32.mul (F32.fin q) (F32.fin 10) = F32.fin r1 := by
    simp only [F32.mul]; exact e
  obtain ⟨a1, a2, a3⟩ := F32.add_half_toUInt8 r1 hlo hhi
  rw [hmul]
  refine ⟨a1, a2, ?_⟩
  have h1 := abs_le.mp a3
  have h2 := abs_le.mp herr
  norm_num at h2
  rw [abs_le]
  constructor <;> linarith [h1.1, h1.2, h2.1, h2.2]

/-- C11 (counterexample): for the reading `tvoc = 0.005f`, `eco2 = 0.49999997f`
(both on the binary32 grid, with `100 * tvoc` and `eco2` strictly below one
half, so that the nearest integer is 0 in both cases) the published payload
carries `tvoc_x100 = 1` and `eco2 = 1`: the binary32 product `tvoc * 100.0f`
is `0.5`, and the binary32 sum `eco2 + 0.5f` is `1.0`. -/
theorem near_tie_encodes_one :
    F32.Representable (5368709 / 1073741824) ∧ F32.Representable (16777215 / 33554432) ∧
    (100 * (5368709 / 1073741824) : ℚ) < 1 / 2 ∧ ((16777215 / 33554432 : ℚ) < 1 / 2) ∧
    F32Model.roundHalfEven (100 * F32.clampQ (F32.fin (5368709 / 1073741824)) 0 (65535 / 100)) = 0 ∧
    F32Model.roundHalfEven (F32.clampQ (F32.fin (16777215 / 33554432)) 0 65535) = 0 ∧
    F32.mul (F32.fin (5368709 / 1073741824)) (F32.fin 100) = F32.fin (1 / 2) ∧
    F32.add (F32.fin (16777215 / 33554432)) (F32.fin (1 / 2)) = F32.fin 1 ∧
    publish_tvoc_x100 (F32.fin (5368709 / 1073741824)) = 1 ∧
    publish_eco2_i (F32.fin (16777215 / 33554432)) = 1 ∧
    (mesh_publish_sensor_values sdk_consts 0 vendor_configured (F32.fin (5 / 2))
        (F32.fin (5368709 / 1073741824)) (F32.fin (16777215 / 33554432))).2 =
      [Event.access_publish [2, 1, 0, 1, 0, 25]] := by
  decide!

/-- C11 (as amended): when `mesh_publish_sensor_values` hands a payload to
`access_model_publish` (valid handle, no NaN field, publication configured,
AppKey bound), bytes 1-2 hold `tvoc_x100` and bytes 3-4 hold `eco2_i`, where
`tvoc_x100` is the integer part of the binary32 value
`clamp(tvoc, 0, 655.35f) * 100.0f + 0.5f` and `eco2_i` the integer part of the
binary32 value `clamp(eco2, 0, 65535) + 0.5f`; both lie in `0 .. 65535` (the
conversion does not wrap), `tvoc_x100` is within `1/2 + 1/256` of
`100 * clamp(tvoc, 0, 655.35f)` and `eco2_i` within `1/2 + 1/512` of
`clamp(eco2, 0, 65535)`; `tvoc = 1000.0` gives 65535 and `eco2 = -5.0` gives 0. -/
theorem published_tvoc_eco2_encoding (k : SdkConsts) (st : ℕ) (v : VendorState)
    (iaq tvoc eco2 : F32)
    (hh : v.m_vendor_model_handle ≠ k.ACCESS_HANDLE_INVALID)
    (hc : v.s_publish_configured = true)
    (ha : v.s_appkey_handle ≠ k.DSM_HANDLE_INVALID)
    (hi : iaq ≠ F32.nan) (ht : tvoc ≠ F32.nan) (he : eco2 ≠ F32.nan) :
    (mesh_publish_sensor_values k st v iaq tvoc eco2).2 =
      [Event.access_publish
        [publish_iaq_level iaq,
         publish_tvoc_x100 tvoc % 256, publish_tvoc_x100 tvoc / 256,
         publish_eco2_i eco2 % 256, publish_eco2_i eco2 / 256,
         F32.toUInt8 (F32.add (F32.mul iaq (F32.fin 10)) (F32.fin (1 / 2)))]] ∧
    (publish_tvoc_x100 tvoc : ℤ) =
      F32.trunc (F32.add (F32.mul (publish_tvoc_clamped tvoc) (F32.fin 100))
        (F32.fin (1 / 2))) ∧
    publish_tvoc_clamped tvoc = F32.fin (F32.clampQ tvoc 0 (5368627 / 8192)) ∧
    publish_tvoc_x100 tvoc ≤ 65535 ∧
    |(publish_tvoc_x100 tvoc : ℚ) - 100 * F32.clampQ tvoc 0 (5368627 / 8192)|
      ≤ 1 / 2 + 1 / 256 ∧
    (publish_eco2_i eco2 : ℤ) =
      F32.trunc (F32.add (publish_eco2_clamped eco2) (F32.fin (1 / 2))) ∧
    publish_eco2_clamped eco2 = F32.fin (F32.clampQ eco2 0 65535) ∧
    publish_eco2_i eco2 ≤ 65535 ∧
    |(publish_eco2_i eco2 : ℚ) - F32.clampQ eco2 0 65535| ≤ 1 / 2 + 1 / 512 ∧
    publish_tvoc_x100 (F32.fin 1000) = 65535 ∧
    publish_eco2_i (F32.fin (-5)) = 0 := by
  obtain ⟨t1, t2, t3⟩ := publish_tvoc_x100_bounds tvoc ht
  obtain ⟨e1, e2, e3⟩ := publish_eco2_i_bounds eco2 he
  exact ⟨mesh_publish_sensor_values_payload k st v iaq tvoc eco2 hh hc ha hi ht he,
    t1, publish_tvoc_clamped_eq tvoc ht, t2, t3,
    e1, publish_eco2_clamped_eq eco2 he, e2, e3, by decide!, by decide!⟩

/-- In the reference scenario the reading (2.5, 1000, -5) is published with
`tvoc_x100 = 65535` and `eco2 = 0`. -/
theorem published_tvoc_eco2_encoding_witness :
    (mesh_publish_sensor_values sdk_consts 0 vendor_configured
        (F32.fin (5 / 2)) (F32.fin 1000) (F32.fin (-5))).2 =
      [Event.access_publish [2, 255, 255, 0, 0, 25]] :=
  ((published_tvoc_eco2_encoding sdk_consts 0 vendor_configured
      (F32.fin (5 / 2)) (F32.fin 1000) (F32.fin (-5))
      (by decide) rfl (by decide) (by simp) (by simp) (by simp)).1).trans (by decide!)

/-- C13 (counterexample): the IAQ value `0.049999997f` is on the binary32 grid,
passes the validity and range checks, and ten times it is strictly below one
half, yet byte 5 is 1: the binary32 sum `iaq * 10.0f + 0.5f` is `1.0`. -/
theorem iaq_near_tie_byte5_is_one :
    F32.Representable (3355443 / 67108864) ∧
    is_valid_float (F32.fin (3355443 / 67108864)) = true ∧
    F32.toInt16 (F32.fin (3355443 / 67108864)) = 0 ∧
    (10 * (3355443 / 67108864) : ℚ) < 1 / 2 ∧
    F32Model.roundHalfEven (10 * (3355443 / 67108864)) = 0 ∧
    F32.add (F32.mul (F32.fin (3355443 / 67108864)) (F32.fin 10)) (F32.fin (1 / 2)) = F32.fin 1 ∧
    (pack_payload 1 (F32.fin (3355443 / 67108864)) 45 680).1.getD 5 0 = 1 := by
  decide!

/-- C13 (as amended): for every IAQ value in `[0, 25.5]`, byte 5 of the payload
written by `pack_payload` is the integer part of the binary32 value
`iaq * 10.0f + 0.5f`; it lies in `0 .. 255` (the conversion to `uint8_t` does
not wrap) and is within `1/2 + 1/256` of ten times the value; for 25.5 it is
255 and for 0 it is 0. -/
theorem iaq_x10_byte_in_range (iaq_level tvoc_x100 eco2 : ℕ) (q : ℚ)
    (h0 : 0 ≤ q) (h1 : q ≤ 51 / 2) :
    ((pack_payload iaq_level (F32.fin q) tvoc_x100 eco2).1.getD 5 0 : ℤ) =
      F32.trunc (F32.add (F32.mul (F32.fin q) (F32.fin 10)) (F32.fin (1 / 2))) ∧
    (pack_payload iaq_level (F32.fin q) tvoc_x100 eco2).1.getD 5 0 ≤ 255 ∧
    |((pack_payload iaq_level (F32.fin q) tvoc_x100 eco2).1.getD 5 0 : ℚ) - 10 * q|
      ≤ 1 / 2 + 1 / 256 ∧
    (pack_payload iaq_level (F32.fin (51 / 2)) tvoc_x100 eco2).1.getD 5 0 = 255 ∧
    (pack_payload iaq_level (F32.fin 0) tvoc_x100 eco2).1.getD 5 0 = 0 := by
  have hb : ∀ x : F32, (pack_payload iaq_level x tvoc_x100 eco2).1.getD 5 0 =
      F32.toUInt8 (F32.add (F32.mul x (F32.fin 10)) (F32.fin (1 / 2))) := by
    intro x
    simp [pack_payload, F32.round_10, F32.round_half]
  obtain ⟨a, b, c⟩ := iaq_x10_bounds q h0 h1
  rw [hb, hb, hb]
  exact ⟨a, b, c, by decide!, by decide!⟩

/-- The IAQ value `2.3f` gives byte 5 equal to 23. -/
theorem iaq_x10_byte_in_range_witness :
    (pack_payload 2 (F32.fin (9646899 / 4194304)) 45 680).1.getD 5 0 ≤ 255 ∧
    F32.trunc (F32.add (F32.mul (F32.fin (9646899 / 4194304)) (F32.fin 10))
      (F32.fin (1 / 2))) = 23 :=
  have h := iaq_x10_byte_in_range 2 45 680 (9646899 / 4194304) (by decide!) (by decide!)
  ⟨h.2.1, by decide!⟩

/-- Above 25.5 the conversion to `uint8_t` is out of range and nothing clamps
the value: the IAQ value 30 passes the validity and range checks and gives
byte 5 equal to `300 mod 256 = 44`. -/
theorem iaq_30_byte5_wraps :
    is_valid_float (F32.fin 30) = true ∧ F32.toInt16 (F32.fin 30) = 30 ∧
    F32.trunc (F32.add (F32.mul (F32.fin 30) (F32.fin 10)) (F32.fin (1 / 2))) = 300 ∧
    (pack_payload 5 (F32.fin 30) 45 680).1.getD 5 0 = 44 := by
  decide!

/-! ## Serial line -/

/-- C16 (failing input): for the node `0x0029` and the reading
`2.3f, 0.45f, 680`, which is what `vendor_model_rx_cb` forwards for the payload
`02 2D 00 A8 02 17`, `app_uart_send_iaq_data` emits the line with `"iaq":2.2`:
the binary32 remainder `2.3f - 2` is `0.29999995`, ten times it is `2.9999995`,
and the conversion to `int` cuts it to 2. -/
theorem uart_line_2_3_prints_2_2 :
    (vendor_model_rx_cb 0x0001 NodeSet.init
        { opcode := 0xC1, company_id := 0x0059, src := 0x0029,
          p_data := [2, 45, 0, 168, 2, 23] }).2 =
      [Event.uart_send 0x0029 (F32.round (23 / 10)) (F32.round (45 / 100)) (F32.fin 680)] ∧
    F32.mul (F32.sub (F32.round (23 / 10)) (F32.ofInt 2)) (F32.ofInt 10) =
      F32.fin (6291455 / 2097152) ∧
    app_uart_send_iaq_data true 0x0029 (F32.round (23 / 10)) (F32.round (45 / 100))
        (F32.fin 680) =
      "\x7b\"node\":\"0x0029\",\"iaq\":2.2,\"tvoc\":0.45,\"eco2\":680\x7d\n".toList := by
  decide!

/-! ## Rejected messages and the node set -/

/-- A call that classifies its argument as repeat leaves the node set as it is. -/
theorem is_first_reception_from_node_repeat (ns : NodeSet) (x : ℕ)
    (h : (is_first_reception_from_node ns x).1 = false) :
    (is_first_reception_from_node ns x).2 = ns := by
  unfold is_first_reception_from_node at h ⊢
  split_ifs at h ⊢
  simp_all

/-- C21: `vendor_model_rx_cb` returns without touching the node set and without
serial output when the opcode or the company id is wrong or the source is the
local address.  A message with the right opcode and company id from a foreign
source that is not tracked yet, with fewer than 6 bytes, produces no serial
output, but when the count is below 10 its source is appended to the tracked
entries; the next accepted message from that source is then classified as
repeat, is forwarded once, and leaves the node set unchanged. -/
theorem rejected_messages_and_node_set (local_addr : ℕ) (ns : NodeSet)
    (m : access_message_rx_t) :
    ((m.opcode ≠ 0xC1 ∨ m.company_id ≠ 0x0059 ∨ m.src = local_addr) →
      vendor_model_rx_cb local_addr ns m = (ns, [])) ∧
    (ns.WellFormed → m.opcode = 0xC1 → m.company_id = 0x0059 → m.src ≠ local_addr →
      m.length < 6 → m.src ∉ ns.tracked → ns.s_received_node_count < 10 →
      (vendor_model_rx_cb local_addr ns m).2 = [] ∧
      (is_first_reception_from_node ns m.src).1 = true ∧
      (vendor_model_rx_cb local_addr ns m).1.tracked = ns.tracked ++ [m.src] ∧
      (vendor_model_rx_cb local_addr ns m).1.s_received_node_count
        = ns.s_received_node_count + 1 ∧
      (∀ m2 : access_message_rx_t,
        m2.opcode = 0xC1 → m2.company_id = 0x0059 → m2.src = m.src → 6 ≤ m2.length →
        (is_first_reception_from_node (vendor_model_rx_cb local_addr ns m).1 m2.src).1
          = false ∧
        (vendor_model_rx_cb local_addr (vendor_model_rx_cb local_addr ns m).1 m2).2.length
          = 1 ∧
        (vendor_model_rx_cb local_addr (vendor_model_rx_cb local_addr ns m).1 m2).1
          = (vendor_model_rx_cb local_addr ns m).1)) := by
  constructor
  · intro h
    unfold vendor_model_rx_cb
    simp only [VENDOR_OPCODE_SENSOR_VALUES, VENDOR_COMPANY_ID]
    by_cases ho : m.opcode = 0xC1
    · by_cases hc : m.company_id = 0x0059
      · have hs : m.src = local_addr := by
          rcases h with h | h | h
          · exact absurd ho h
          · exact absurd hc h
          · exact h
        simp [ho, hc, hs]
      · simp [hc]
    · simp [ho]
  · intro hw ho hc hs hl hx hcap
    have hl' : ¬ 6 ≤ m.length := by omega
    have e : vendor_model_rx_cb local_addr ns m =
        ((is_first_reception_from_node ns m.src).2, []) := by
      simp [vendor_model_rx_cb, VENDOR_OPCODE_SENSOR_VALUES, VENDOR_COMPANY_ID, ho, hc, hs, hl']
    obtain ⟨w1, c1, t1⟩ := is_first_reception_from_node_step ns m.src hw
    have hne : ¬ (m.src ∈ ns.tracked ∨ ns.s_received_node_count = 10) := by
      rintro (h | h)
      · exact hx h
      · omega
    rw [if_neg hne] at t1
    have hfirst : (is_first_reception_from_node ns m.src).1 = true := by
      cases hb : (is_first_reception_from_node ns m.src).1
      · exact absurd (c1.mp hb) hx
      · rfl
    have hcount : (is_first_reception_from_node ns m.src).2.s_received_node_count
        = ns.s_received_node_count + 1 := by
      rw [← NodeSet.tracked_length _ w1, t1, List.length_append, NodeSet.tracked_length _ hw]
      rfl
    rw [e]
    refine ⟨rfl, hfirst, t1, hcount, fun m2 ho2 hc2 hs2 hl2 => ?_⟩
    have hmem : m2.src ∈ (is_first_reception_from_node ns m.src).2.tracked := by
      rw [t1, hs2]
      exact List.mem_append_right _ (List.mem_singleton_self _)
    have hrep : (is_first_reception_from_node (is_first_reception_from_node ns m.src).2
        m2.src).1 = false :=
      (is_first_reception_from_node_step _ m2.src w1).2.1.mpr hmem
    have hsame := is_first_reception_from_node_repeat _ _ hrep
    have hs2' : ¬ (m2.src = local_addr) := by rw [hs2]; exact hs
    refine ⟨hrep, ?_, ?_⟩
    · simp [vendor_model_rx_cb, VENDOR_OPCODE_SENSOR_VALUES, VENDOR_COMPANY_ID, ho2, hc2,
        hs2', hl2]
    · simp only [vendor_model_rx_cb, VENDOR_OPCODE_SENSOR_VALUES, VENDOR_COMPANY_ID, ho2, hc2,
        hs2', hl2, ne_eq, not_true_eq_false, or_self, if_false, if_true]
      exact hsame

/-- From the empty node set, a 3-byte message from `0x0029` produces no serial
output and records `0x0029`; the accepted message `01 2D 00 A8 02 17` that
follows from the same source is classified as repeat and forwarded once. -/
theorem rejected_messages_and_node_set_witness :
    (vendor_model_rx_cb 0x0001 NodeSet.init
        { opcode := 0xC1, company_id := 0x0059, src := 0x0029, p_data := [1, 45, 0] }).2 = [] ∧
    (vendor_model_rx_cb 0x0001 NodeSet.init
        { opcode := 0xC1, company_id := 0x0059, src := 0x0029, p_data := [1, 45, 0] }).1.tracked
      = [0x0029] ∧
    (is_first_reception_from_node
        (vendor_model_rx_cb 0x0001 NodeSet.init
          { opcode := 0xC1, company_id := 0x0059, src := 0x0029, p_data := [1, 45, 0] }).1
        0x0029).1 = false ∧
    (vendor_model_rx_cb 0x0001
        (vendor_model_rx_cb 0x0001 NodeSet.init
          { opcode := 0xC1, company_id := 0x0059, src := 0x0029, p_data := [1, 45, 0] }).1
        { opcode := 0xC1, company_id := 0x0059, src := 0x0029,
          p_data := [1, 45, 0, 168, 2, 23] }).2.length = 1 :=
  have h := (rejected_messages_and_node_set 0x0001 NodeSet.init
      { opcode := 0xC1, company_id := 0x0059, src := 0x0029, p_data := [1, 45, 0] }).2
    NodeSet.init_wellFormed rfl rfl (by decide) (by decide) (by decide) (by decide)
  have h2 := h.2.2.2.2
    { opcode := 0xC1, company_id := 0x0059, src := 0x0029, p_data := [1, 45, 0, 168, 2, 23] }
    rfl rfl rfl (by decide)
  ⟨h.1, h.2.2.1, h2.1, h2.2.1⟩

/-! ## Monotonicity of rounding -/

namespace F32Model

theorem pow2_eq_zpow (k : ℤ) : pow2 k = (2 : ℚ) ^ k := by
  rcases le_or_lt 0 k with h | h
  · obtain ⟨n, rfl⟩ := Int.eq_ofNat_of_zero_le h
    rw [pow2_natCast, zpow_natCast]
  · obtain ⟨n, rfl⟩ : ∃ n : ℕ, k = -(n : ℤ) := ⟨(-k).toNat, by omega⟩
    rw [pow2_neg_natCast, zpow_neg, zpow_natCast, one_div]

theorem ilog2_neg (q : ℚ) : ilog2 (-q) = ilog2 q := by
  unfold ilog2
  simp

theorem ilog2_spec (q : ℚ) (h0 : 0 < q) :
    (2 : ℚ) ^ (ilog2 q) ≤ q ∧ q < (2 : ℚ) ^ (ilog2 q + 1) := by
  have hnum : 0 < q.num := Rat.num_pos.mpr h0
  have hden : 0 < q.den := q.den_pos
  have hn1 : 1 ≤ q.num.natAbs := by omega
  obtain ⟨a1, a2⟩ := log2Fuel_spec q.num.natAbs q.num.natAbs le_rfl hn1
  obtain ⟨b1, b2⟩ := log2Fuel_spec q.den q.den le_rfl hden
  have hd' : (0 : ℚ) < q.den := by exact_mod_cast hden
  have e1 : (q.num.natAbs : ℚ) / q.den = q := by
    rw [Nat.cast_natAbs, abs_of_pos hnum]
    exact Rat.num_div_den q
  have a1' : (2 : ℚ) ^ (log2Fuel q.num.natAbs q.num.natAbs) ≤ q.num.natAbs := by exact_mod_cast a1
  have a2' : (q.num.natAbs : ℚ) < (2 : ℚ) ^ (log2Fuel q.num.natAbs q.num.natAbs + 1) := by
    exact_mod_cast a2
  have b1' : (2 : ℚ) ^ (log2Fuel q.den q.den) ≤ q.den := by exact_mod_cast b1
  have b2' : (q.den : ℚ) < (2 : ℚ) ^ (log2Fuel q.den q.den + 1) := by exact_mod_cast b2
  have hn' : (0 : ℚ) < q.num.natAbs := by exact_mod_cast hn1
  unfold ilog2
  simp only []
  set Ln := log2Fuel q.num.natAbs q.num.natAbs
  set Ld := log2Fuel q.den q.den
  split_ifs with hc
  · rw [pow2_eq_zpow, abs_of_pos h0] at hc
    refine ⟨hc, ?_⟩
    have e : ((Ln : ℤ) - (Ld : ℤ) + 1) = ((Ln + 1 : ℕ) : ℤ) - (Ld : ℤ) := by push_cast; ring
    rw [e, zpow_sub₀ (by norm_num), zpow_natCast, zpow_natCast, ← e1]
    rw [div_lt_div_iff₀ hd' (by positivity)]
    calc (q.num.natAbs : ℚ) * 2 ^ Ld ≤ q.num.natAbs * q.den :=
          mul_le_mul_of_nonneg_left b1' hn'.le
      _ < 2 ^ (Ln + 1) * q.den := mul_lt_mul_of_pos_right a2' hd'
  · rw [pow2_eq_zpow, abs_of_pos h0] at hc
    push_neg at hc
    refine ⟨?_, by simpa using hc⟩
    have e : ((Ln : ℤ) - (Ld : ℤ) - 1) = (Ln : ℤ) - ((Ld + 1 : ℕ) : ℤ) := by push_cast; ring
    rw [e, zpow_sub₀ (by norm_num), zpow_natCast, zpow_natCast]
    conv_rhs => rw [← e1]
    rw [div_le_div_iff₀ (by positivity) hd']
    calc (2 : ℚ) ^ Ln * q.den ≤ q.num.natAbs * q.den :=
          mul_le_mul_of_nonneg_right a1' hd'.le
      _ ≤ q.num.natAbs * 2 ^ (Ld + 1) := mul_le_mul_of_nonneg_left b2'.le hn'.le

theorem ilog2_mono (x y : ℚ) (hx : 0 < x) (h : x ≤ y) : ilog2 x ≤ ilog2 y := by
  obtain ⟨x1, x2⟩ := ilog2_spec x hx
  obtain ⟨y1, y2⟩ := ilog2_spec y (lt_of_lt_of_le hx h)
  by_contra hc
  push_neg at hc
  have : (2 : ℚ) ^ (ilog2 y + 1) ≤ 2 ^ (ilog2 x) :=
    zpow_le_zpow_right₀ (by norm_num) (by omega)
  linarith

theorem roundHalfEven_mono (x y : ℚ) (h : x ≤ y) : roundHalfEven x ≤ roundHalfEven y := by
  have hfl : ⌊x⌋ ≤ ⌊y⌋ := Int.floor_mono h
  have hx1 : (⌊x⌋ : ℚ) ≤ x := Int.floor_le x
  have hx2 : x < (⌊x⌋ : ℚ) + 1 := Int.lt_floor_add_one x
  have hy1 : (⌊y⌋ : ℚ) ≤ y := Int.floor_le y
  have hy2 : y < (⌊y⌋ : ℚ) + 1 := Int.lt_floor_add_one y
  unfold roundHalfEven
  simp only []
  rcases eq_or_lt_of_le hfl with he | hl
  · rw [← he] at hy1 hy2 ⊢
    split_ifs <;> first | omega | (exfalso; linarith)
  · split_ifs <;> omega

end F32Model

namespace F32Model

theorem round_mag_mono (x y : ℚ) (hx : 0 < x) (h : x ≤ y) :
    (roundHalfEven (x / pow2 (max (ilog2 x) (-126) - 23)) : ℚ) * pow2 (max (ilog2 x) (-126) - 23) ≤
    (roundHalfEven (y / pow2 (max (ilog2 y) (-126) - 23)) : ℚ) * pow2 (max (ilog2 y) (-126) - 23) := by
  have hy : 0 < y := lt_of_lt_of_le hx h
  obtain ⟨-, x2⟩ := ilog2_spec x hx
  obtain ⟨y1, -⟩ := ilog2_spec y hy
  have hle : max (ilog2 x) (-126) ≤ max (ilog2 y) (-126) :=
    max_le_max (ilog2_mono x y hx h) le_rfl
  rw [pow2_eq_zpow, pow2_eq_zpow]
  set ex := max (ilog2 x) (-126) with hex
  set ey := max (ilog2 y) (-126) with hey
  have hux : (0 : ℚ) < 2 ^ (ex - 23) := by positivity
  have huy : (0 : ℚ) < 2 ^ (ey - 23) := by positivity
  rcases eq_or_lt_of_le hle with he | hl
  · rw [← he]
    apply mul_le_mul_of_nonneg_right _ hux.le
    exact_mod_cast roundHalfEven_mono _ _ (div_le_div_of_nonneg_right h hux.le)
  · have hey2 : ey = ilog2 y := by
      have : -126 ≤ ex := le_max_right _ _
      rcases max_cases (ilog2 y) (-126) with ⟨e, -⟩ | ⟨e, -⟩
      · exact e
      · omega
    have hx24 : (2 : ℚ) ^ (ex + 1) = 2 ^ (ex - 23) * 16777216 := by
      have : ex + 1 = (ex - 23) + 24 := by ring
      rw [this, zpow_add₀ (by norm_num)]
      norm_num
    have hy23 : (2 : ℚ) ^ ey = 2 ^ (ey - 23) * 8388608 := by
      have : ey = (ey - 23) + 23 := by ring
      conv_lhs => rw [this]
      rw [zpow_add₀ (by norm_num)]
      norm_num
    have hxe : (2 : ℚ) ^ (ilog2 x + 1) ≤ 2 ^ (ex + 1) :=
      zpow_le_zpow_right₀ (by norm_num) (by have := le_max_left (ilog2 x) (-126); omega)
    have hxy : (2 : ℚ) ^ (ex + 1) ≤ 2 ^ ey := zpow_le_zpow_right₀ (by norm_num) (by omega)
    have hnx : roundHalfEven (x / 2 ^ (ex - 23)) ≤ 16777216 := by
      apply (roundHalfEven_bounds _).2.2
      rw [div_le_iff₀ hux]
      push_cast
      linarith
    have hny : 8388608 ≤ roundHalfEven (y / 2 ^ (ey - 23)) := by
      apply (roundHalfEven_bounds _).2.1
      rw [le_div_iff₀ huy]
      push_cast
      rw [hey2] at hy23 ⊢
      linarith
    have hnx' : (roundHalfEven (x / 2 ^ (ex - 23)) : ℚ) ≤ 16777216 := by exact_mod_cast hnx
    have hny' : (8388608 : ℚ) ≤ roundHalfEven (y / 2 ^ (ey - 23)) := by exact_mod_cast hny
    calc (roundHalfEven (x / 2 ^ (ex - 23)) : ℚ) * 2 ^ (ex - 23)
        ≤ 16777216 * 2 ^ (ex - 23) := mul_le_mul_of_nonneg_right hnx' hux.le
      _ = 2 ^ (ex + 1) := by rw [hx24]; ring
      _ ≤ 2 ^ ey := hxy
      _ = 8388608 * 2 ^ (ey - 23) := by rw [hy23]; ring
      _ ≤ roundHalfEven (y / 2 ^ (ey - 23)) * 2 ^ (ey - 23) :=
          mul_le_mul_of_nonneg_right hny' huy.le

theorem round_mag_nonneg (y : ℚ) (hy : 0 ≤ y) :
    0 ≤ (roundHalfEven (y / pow2 (max (ilog2 y) (-126) - 23)) : ℚ) *
      pow2 (max (ilog2 y) (-126) - 23) := by
  rw [pow2_eq_zpow]
  have hu : (0 : ℚ) < 2 ^ (max (ilog2 y) (-126) - 23) := by positivity
  apply mul_nonneg _ hu.le
  have : (0 : ℤ) ≤ roundHalfEven (y / 2 ^ (max (ilog2 y) (-126) - 23)) := by
    apply (roundHalfEven_bounds _).2.1
    push_cast
    positivity
  exact_mod_cast this

end F32Model

/-- Rounding to binary32 commutes with negation. -/
theorem F32.round_neg (q : ℚ) : F32.round (-q) = F32.neg (F32.round q) := by
  by_cases h0 : q = 0
  · subst h0
    simp [F32.round, F32.neg]
  · have h0' : -q ≠ 0 := neg_ne_zero.mpr h0
    unfold F32.round
    rw [if_neg h0, if_neg h0']
    simp only [F32Model.ilog2_neg, abs_neg]
    rcases lt_or_gt_of_ne h0 with hn | hp
    · have h1 : ¬ (-q < 0) := by linarith
      split_ifs <;> simp [F32.neg, hn, h1]
    · have h1 : -q < 0 := by linarith
      have h2 : ¬ (q < 0) := by linarith
      split_ifs <;> simp [F32.neg, h1, h2]

/-- Rounding to binary32 is monotone on the non-negative rationals (a value
that overflows to `+inf` counts as the largest). -/
theorem F32.round_mono_nonneg (x y : ℚ) (hx : 0 ≤ x) (h : x ≤ y) :
    F32.le (F32.round x) (F32.round y) = true := by
  have hy : 0 ≤ y := hx.trans h
  have hyn : ¬ y < 0 := not_lt.mpr hy
  have hxn : ¬ x < 0 := not_lt.mpr hx
  have my := F32Model.round_mag_nonneg y hy
  rcases hx.eq_or_lt with hx0 | hx0
  · subst hx0
    unfold F32.round
    simp only [if_true, hyn, abs_of_nonneg hy, if_false, decide_False]
    split_ifs <;> simp [F32.le]
    exact my
  · have hy0 : 0 < y := lt_of_lt_of_le hx0 h
    have mm := F32Model.round_mag_mono x y hx0 h
    unfold F32.round
    rw [if_neg hx0.ne', if_neg hy0.ne']
    simp only [hyn, hxn, abs_of_nonneg hy, abs_of_nonneg hx, if_false, decide_False]
    split_ifs with o1 o2 o2
    · simp [F32.le]
    · exact absurd (o1.trans mm) o2
    · simp [F32.le]
    · simpa [F32.le] using mm

/-- A non-negative rational rounds to a non-negative finite value or to `+inf`. -/
theorem F32.round_nonneg_cases (q : ℚ) (h : 0 ≤ q) :
    (∃ r : ℚ, 0 ≤ r ∧ F32.round q = F32.fin r) ∨ F32.round q = F32.inf false := by
  have hn : ¬ q < 0 := not_lt.mpr h
  have my := F32Model.round_mag_nonneg q h
  by_cases h0 : q = 0
  · subst h0
    exact Or.inl ⟨0, le_rfl, by simp [F32.round]⟩
  · unfold F32.round
    rw [if_neg h0]
    simp only [hn, abs_of_nonneg h, if_false, decide_False]
    split_ifs
    · exact Or.inr rfl
    · exact Or.inl ⟨_, my, rfl⟩

/-- The magnitude of a rounded value is the rounded magnitude. -/
theorem F32.fabsf_round (q : ℚ) : F32.fabsf (F32.round q) = F32.round |q| := by
  rcases le_or_lt 0 q with h | h
  · rw [abs_of_nonneg h]
    rcases F32.round_nonneg_cases q h with ⟨r, hr, e⟩ | e
    · rw [e]
      simp [F32.fabsf, abs_of_nonneg hr]
    · rw [e]
      rfl
  · rw [abs_of_neg h]
    have hq : q = -(-q) := by ring
    have hp : 0 ≤ -q := by linarith
    conv_lhs => rw [hq, F32.round_neg]
    rcases F32.round_nonneg_cases (-q) hp with ⟨r, hr, e⟩ | e
    · rw [e]
      simp [F32.fabsf, F32.neg, abs_of_nonneg hr]
    · rw [e]
      rfl

/-- The comparison `fabsf(x) >= B` on binary32 values, read on exact magnitudes. -/
theorem F32.ge_fabsf_iff (x : F32) (B : ℚ) :
    F32.ge (F32.fabsf x) (F32.fin B) = true ↔ F32.MagnitudeAtLeast x B := by
  cases x <;> simp [F32.ge, F32.le, F32.fabsf, F32.MagnitudeAtLeast]

/-- A binary32 value that is at most `p` does not reach a bound above `p`. -/
theorem F32.ge_false_of_le (x : F32) (p B : ℚ) (hp : p < B)
    (h : F32.le x (F32.fin p) = true) : F32.ge x (F32.fin B) = false := by
  cases x with
  | nan => simp [F32.ge, F32.le]
  | inf s => simp_all [F32.ge, F32.le]
  | fin q =>
    simp only [F32.le, decide_eq_true_eq] at h
    simp only [F32.ge, F32.le, decide_eq_false_iff_not, not_le]
    linarith

namespace F32Model

theorem roundHalfEven_near (y : ℚ) (P : ℤ) (h1 : (P : ℚ) - 1 / 2 < y) (h2 : y < (P : ℚ) + 1 / 2) :
    roundHalfEven y = P := by
  obtain ⟨hb, -, -⟩ := roundHalfEven_bounds y
  rw [abs_le] at hb
  obtain ⟨hb1, hb2⟩ := hb
  have l1 : ((roundHalfEven y : ℤ) : ℚ) < ((P + 1 : ℤ) : ℚ) := by push_cast; linarith
  have l2 : ((P - 1 : ℤ) : ℚ) < ((roundHalfEven y : ℤ) : ℚ) := by push_cast; linarith
  have l1' : roundHalfEven y < P + 1 := by exact_mod_cast l1
  have l2' : P - 1 < roundHalfEven y := by exact_mod_cast l2
  omega

end F32Model

/-- A rational of the binade `2 ^ e` that lies less than half a grid step from
the grid point `P * 2 ^ (e - 23)` rounds to that grid point. -/
theorem F32.round_near (P e : ℤ) (u x : ℚ) (hu : u = (2 : ℚ) ^ (e - 23))
    (hP : P ≤ 16777215) (he1 : -126 ≤ e) (he2 : e ≤ 127)
    (hb : 8388608 * u ≤ x) (h1 : ((P : ℚ) - 1 / 2) * u < x) (h2 : x < ((P : ℚ) + 1 / 2) * u) :
    F32.round x = F32.fin ((P : ℚ) * u) := by
  have hu0 : 0 < u := by rw [hu]; positivity
  have hx0 : 0 < x := lt_of_lt_of_le (by positivity) hb
  have hP' : (P : ℚ) ≤ 16777215 := by exact_mod_cast hP
  have e23 : (2 : ℚ) ^ e = 8388608 * u := by
    have : e = 23 + (e - 23) := by ring
    conv_lhs => rw [this]
    rw [zpow_add₀ (by norm_num), ← hu]
    norm_num
  have e24 : (2 : ℚ) ^ (e + 1) = 16777216 * u := by
    have : e + 1 = 24 + (e - 23) := by ring
    rw [this, zpow_add₀ (by norm_num), ← hu]
    norm_num
  have hxu : x < 16777216 * u := by
    have : ((P : ℚ) + 1 / 2) * u ≤ (16777215 + 1 / 2) * u :=
      mul_le_mul_of_nonneg_right (by linarith) hu0.le
    have : (16777215 + 1 / 2) * u < 16777216 * u := mul_lt_mul_of_pos_right (by norm_num) hu0
    linarith
  obtain ⟨s1, s2⟩ := F32Model.ilog2_spec x hx0
  have hil : F32Model.ilog2 x = e := by
    apply le_antisymm
    · by_contra hc
      push_neg at hc
      have : (2 : ℚ) ^ (e + 1) ≤ 2 ^ (F32Model.ilog2 x) :=
        zpow_le_zpow_right₀ (by norm_num) (by omega)
      linarith
    · by_contra hc
      push_neg at hc
      have : (2 : ℚ) ^ (F32Model.ilog2 x + 1) ≤ 2 ^ e :=
        zpow_le_zpow_right₀ (by norm_num) (by omega)
      linarith
  have hn : F32Model.roundHalfEven (x / u) = P := by
    apply F32Model.roundHalfEven_near
    · rw [lt_div_iff₀ hu0]; exact h1
    · rw [div_lt_iff₀ hu0]; exact h2
  have hov : ¬ ((2 : ℚ) ^ (128 : ℤ) ≤ (P : ℚ) * u) := by
    have a1 : (P : ℚ) * u < 16777216 * u := mul_lt_mul_of_pos_right (by linarith) hu0
    have a2 : (2 : ℚ) ^ (e + 1) ≤ 2 ^ (128 : ℤ) := zpow_le_zpow_right₀ (by norm_num) (by omega)
    linarith
  unfold F32.round
  rw [if_neg hx0.ne']
  simp only [hil, max_eq_left he1, F32Model.pow2_eq_zpow, ← hu, abs_of_pos hx0, hn, hov,
    not_lt.mpr hx0.le, if_false]

/-! ## Threshold gate on exact deltas -/

/-- One comparison of the gate on finite values: it looks at the exact
magnitude of the binary32-rounded difference. -/
theorem gate_field_iff (a b B : ℚ) :
    F32.ge (F32.fabsf (F32.sub (F32.fin a) (F32.fin b))) (F32.fin B) = true ↔
      F32.MagnitudeAtLeast (F32.round (a - b)) B :=
  F32.ge_fabsf_iff (F32.round (a - b)) B

/-- One comparison of the gate holds as soon as the exact delta reaches a value
that rounds to the threshold. -/
theorem gate_field_of_le (a b c B : ℚ) (hc : F32.round c = F32.fin B) (h0 : 0 ≤ c)
    (h : c ≤ |a - b|) :
    F32.ge (F32.fabsf (F32.sub (F32.fin a) (F32.fin b))) (F32.fin B) = true := by
  show F32.le (F32.fin B) (F32.fabsf (F32.round (a - b))) = true
  rw [F32.fabsf_round, ← hc]
  exact F32.round_mono_nonneg c _ h0 h

/-- One comparison of the gate fails when the exact delta is at most a value
that rounds to a binary32 value below the threshold. -/
theorem gate_field_below (a b c p B : ℚ) (hc : F32.round c = F32.fin p) (hB : p < B)
    (h : |a - b| ≤ c) :
    F32.ge (F32.fabsf (F32.sub (F32.fin a) (F32.fin b))) (F32.fin B) = false := by
  apply F32.ge_false_of_le _ p B hB
  show F32.le (F32.fabsf (F32.round (a - b))) (F32.fin p) = true
  rw [F32.fabsf_round, ← hc]
  exact F32.round_mono_nonneg _ c (abs_nonneg _) h

/-- One comparison of the gate, when the exact delta rounds to a known value. -/
theorem gate_field_of_round (a b r B : ℚ) (hr : F32.round |a - b| = F32.fin r) :
    F32.ge (F32.fabsf (F32.sub (F32.fin a) (F32.fin b))) (F32.fin B) = decide (B ≤ r) := by
  show F32.le (F32.fin B) (F32.fabsf (F32.round (a - b))) = decide (B ≤ r)
  rw [F32.fabsf_round, hr]
  rfl

theorem F32.round_pred_half :
    F32.round (16777215 / 33554432) = F32.fin (16777215 / 33554432) := by decide!

theorem F32.round_pred_tvoc_threshold :
    F32.round (3355443 / 67108864) = F32.fin (3355443 / 67108864) := by decide!

theorem F32.round_pred_ten :
    F32.round (10485759 / 1048576) = F32.fin (10485759 / 1048576) := by decide!

theorem F32.round_iaq_band :
    F32.round (33554431 / 67108864) = F32.fin (1 / 2) := by decide!

theorem F32.round_tvoc_band :
    F32.round (26843545 / 536870912) = F32.fin (3355443 / 67108864) := by decide!

theorem F32.round_eco2_band :
    F32.round (20971519 / 2097152) = F32.fin 10 := by decide!

theorem F32.round_tvoc_threshold :
    F32.round (13421773 / 268435456) = F32.fin (13421773 / 268435456) := by decide!

/-- The IAQ comparison `fabsf(a - b) >= 0.5f` on exact values: it holds from
`0.5 - 2^-26` on. -/
theorem gate_iaq_exact (a b : ℚ) :
    F32.ge (F32.fabsf (F32.sub (F32.fin a) (F32.fin b))) (F32.fin (1 / 2)) = true ↔
      33554431 / 67108864 ≤ |a - b| := by
  constructor
  · intro h
    by_contra hc
    push_neg at hc
    have hf : F32.ge (F32.fabsf (F32.sub (F32.fin a) (F32.fin b))) (F32.fin (1 / 2)) = false := by
      rcases le_or_lt |a - b| (16777215 / 33554432) with hp | hp
      · exact gate_field_below a b _ _ (1 / 2) F32.round_pred_half (by norm_num) hp
      · have hr := F32.round_near 16777215 (-2) (1 / 33554432) |a - b| (by norm_num)
          (by norm_num) (by norm_num) (by norm_num) (by linarith)
          (by push_cast; linarith) (by push_cast; linarith)
        rw [gate_field_of_round a b _ _ hr]
        norm_num
    rw [hf] at h
    exact absurd h (by simp)
  · intro h
    exact gate_field_of_le a b (33554431 / 67108864) _ F32.round_iaq_band (by norm_num) h

/-- The TVOC comparison `fabsf(a - b) >= 0.05f` on exact values: it holds above
`0.05f - 2^-29`. -/
theorem gate_tvoc_exact (a b : ℚ) :
    F32.ge (F32.fabsf (F32.sub (F32.fin a) (F32.fin b))) (F32.fin (13421773 / 268435456)) = true ↔
      26843545 / 536870912 < |a - b| := by
  constructor
  · intro h
    by_contra hc
    push_neg at hc
    rw [gate_field_below a b _ _ (13421773 / 268435456) F32.round_tvoc_band (by norm_num) hc] at h
    exact absurd h (by simp)
  · intro h
    rcases le_or_lt (13421773 / 268435456) |a - b| with hp | hp
    · exact gate_field_of_le a b _ _ F32.round_tvoc_threshold (by norm_num) hp
    · have hr := F32.round_near 13421773 (-5) (1 / 268435456) |a - b| (by norm_num)
        (by norm_num) (by norm_num) (by norm_num) (by linarith)
        (by push_cast; linarith) (by push_cast; linarith)
      rw [gate_field_of_round a b _ _ hr]
      norm_num

/-- The eCO2 comparison `fabsf(a - b) >= 10.0f` on exact values: it holds from
`10 - 2^-21` on. -/
theorem gate_eco2_exact (a b : ℚ) :
    F32.ge (F32.fabsf (F32.sub (F32.fin a) (F32.fin b))) (F32.fin 10) = true ↔
      20971519 / 2097152 ≤ |a - b| := by
  constructor
  · intro h
    by_contra hc
    push_neg at hc
    have hf : F32.ge (F32.fabsf (F32.sub (F32.fin a) (F32.fin b))) (F32.fin 10) = false := by
      rcases le_or_lt |a - b| (10485759 / 1048576) with hp | hp
      · exact gate_field_below a b _ _ 10 F32.round_pred_ten (by norm_num) hp
      · have hr := F32.round_near 10485759 3 (1 / 1048576) |a - b| (by norm_num)
          (by norm_num) (by norm_num) (by norm_num) (by linarith)
          (by push_cast; linarith) (by push_cast; linarith)
        rw [gate_field_of_round a b _ _ hr]
        norm_num
    rw [hf] at h
    exact absurd h (by simp)
  · intro h
    exact gate_field_of_le a b (20971519 / 2097152) _ F32.round_eco2_band (by norm_num) h

/-- C1 (counterexample): the stored baseline (2.0, 0x3C23D709, 600.0) and the
reading (2.0, 0.06f, 600.0) are binary32 values; the exact IAQ and eCO2 deltas
are 0 and the exact TVOC delta is 53687091 / 2^30 = 0.04999999981..., strictly
below 0.05, so all three deltas are strictly below their thresholds; yet the
binary32 subtraction rounds the TVOC delta up to 0.05f and `should_publish_data`
returns true. -/
theorem tvoc_delta_below_threshold_opens_gate :
    F32.Representable 2 ∧ F32.Representable 600 ∧
    F32.Representable (10737417 / 1073741824) ∧ F32.Representable (16106127 / 268435456) ∧
    |(2 : ℚ) - 2| < 1 / 2 ∧
    |(16106127 / 268435456 : ℚ) - 10737417 / 1073741824| < 5 / 100 ∧
    |(600 : ℚ) - 600| < 10 ∧
    F32.sub (F32.fin (16106127 / 268435456)) (F32.fin (10737417 / 1073741824)) =
      F32.fin (13421773 / 268435456) ∧
    (should_publish_data
      { last_iaq := F32.fin 2, last_tvoc := F32.fin (10737417 / 1073741824),
        last_eco2 := F32.fin 600, first_reading := false }
      (F32.fin 2) (F32.fin (16106127 / 268435456)) (F32.fin 600)).1 = true := by
  decide!

/-- C1 (as amended): with a stored baseline (`first_reading = false`) of finite
values `b1, b2, b3` and a reading of finite values `a1, a2, a3`,
`should_publish_data` returns true exactly when the difference of some field,
rounded once to binary32, has magnitude at least its threshold: `0.5` for IAQ,
`0.05f = 13421773 / 2^28` for TVOC, `10.0` for eCO2 (each inclusive).  On the
exact deltas `|a - b|` this is: true exactly when the IAQ delta is at least
`0.5 - 2^-26`, or the TVOC delta is above `0.05f - 2^-29`, or the eCO2 delta is
at least `10 - 2^-21`.  In particular the gate opens whenever an exact delta
reaches `0.5`, `0.05` or `10.0`. -/
theorem should_publish_data_exact_deltas (a1 a2 a3 b1 b2 b3 : ℚ) :
    ((should_publish_data
        { last_iaq := F32.fin b1, last_tvoc := F32.fin b2, last_eco2 := F32.fin b3,
          first_reading := false }
        (F32.fin a1) (F32.fin a2) (F32.fin a3)).1 = true ↔
      (F32.MagnitudeAtLeast (F32.round (a1 - b1)) (1 / 2) ∨
       F32.MagnitudeAtLeast (F32.round (a2 - b2)) (13421773 / 268435456) ∨
       F32.MagnitudeAtLeast (F32.round (a3 - b3)) 10)) ∧
    ((should_publish_data
        { last_iaq := F32.fin b1, last_tvoc := F32.fin b2, last_eco2 := F32.fin b3,
          first_reading := false }
        (F32.fin a1) (F32.fin a2) (F32.fin a3)).1 = true ↔
      (33554431 / 67108864 ≤ |a1 - b1| ∨ 26843545 / 536870912 < |a2 - b2| ∨
       20971519 / 2097152 ≤ |a3 - b3|)) ∧
    ((1 / 2 ≤ |a1 - b1| ∨ 5 / 100 ≤ |a2 - b2| ∨ 10 ≤ |a3 - b3|) →
      (should_publish_data
        { last_iaq := F32.fin b1, last_tvoc := F32.fin b2, last_eco2 := F32.fin b3,
          first_reading := false }
        (F32.fin a1) (F32.fin a2) (F32.fin a3)).1 = true) := by
  have ht : F32.round (5 / 100) = F32.fin (13421773 / 268435456) := TVOC_THRESHOLD_eq
  have key := (should_publish_data_iff_threshold
      { last_iaq := F32.fin b1, last_tvoc := F32.fin b2, last_eco2 := F32.fin b3,
        first_reading := false }
      (F32.fin a1) (F32.fin a2) (F32.fin a3) rfl).1
  rw [ht] at key
  simp only [] at key
  have exact := key
  rw [gate_iaq_exact, gate_tvoc_exact, gate_eco2_exact] at exact
  refine ⟨?_, exact, ?_⟩
  · rw [key, gate_field_iff, gate_field_iff, gate_field_iff]
  · intro h
    rw [exact]
    rcases h with h | h | h
    · exact Or.inl (by linarith)
    · exact Or.inr (Or.inl (by linarith))
    · exact Or.inr (Or.inr (by linarith))

/-- C1 (as amended) at three inputs.  Baseline (2.5, 0.5, 600), reading
(2.0, 0.5, 600): IAQ fell by exactly 0.5 and the gate opens.  Baseline
(2^-27, 0.5, 600), reading (0.5, 0.5, 600): the exact IAQ delta `0.5 - 2^-27`
lies in the band below 0.5 and the gate opens.  Baseline (2.0, 0.5, 600),
reading (1.75, 0.5, 605): every delta is below its band and the gate stays
shut. -/
theorem should_publish_data_exact_deltas_witness :
    (should_publish_data
      { last_iaq := F32.fin (5 / 2), last_tvoc := F32.fin (1 / 2), last_eco2 := F32.fin 600,
        first_reading := false }
      (F32.fin 2) (F32.fin (1 / 2)) (F32.fin 600)).1 = true ∧
    (should_publish_data
      { last_iaq := F32.fin (1 / 134217728), last_tvoc := F32.fin (1 / 2),
        last_eco2 := F32.fin 600, first_reading := false }
      (F32.fin (1 / 2)) (F32.fin (1 / 2)) (F32.fin 600)).1 = true ∧
    (should_publish_data
      { last_iaq := F32.fin 2, last_tvoc := F32.fin (1 / 2), last_eco2 := F32.fin 600,
        first_reading := false }
      (F32.fin (7 / 4)) (F32.fin (1 / 2)) (F32.fin 605)).1 = false :=
  ⟨(should_publish_data_exact_deltas 2 (1 / 2) 600 (5 / 2) (1 / 2) 600).2.2
      (Or.inl (by decide!)),
   (should_publish_data_exact_deltas (1 / 2) (1 / 2) 600 (1 / 134217728) (1 / 2) 600).2.1.mpr
      (Or.inl (by decide!)),
   Bool.eq_false_iff.mpr
    (mt (should_publish_data_exact_deltas (7 / 4) (1 / 2) 605 2 (1 / 2) 600).2.1.mp
      (by decide!))⟩
